import Mathlib

/-!
Verification development for the LED fan color corrector
(`src/app.js` and `src/unnamed/part_000`).

The JavaScript source is shallowly embedded: number arithmetic is modelled
over `ℚ` (the arithmetic in the program is exact small-denominator rational
arithmetic), `Math.round` becomes `mathRound`, integer RGB channels are `ℤ`,
strings are `List Char`, and the fallible hex parser returns `Option`.
-/

/-- JavaScript `Math.round`: round half toward positive infinity. -/
def mathRound (q : ℚ) : ℤ := ⌊q + 1/2⌋

/-- An RGB color: three integer channels (`src/app.js` passes `{r, g, b}`
objects whose channels are integers). -/
structure Rgb where
  r : ℤ
  g : ℤ
  b : ℤ
deriving DecidableEq, Repr

/-- An HSL color as produced by `rgbToHsl`: integer hue, saturation and
lightness (the source rounds all three). -/
structure Hsl where
  h : ℤ
  s : ℤ
  l : ℤ
deriving DecidableEq, Repr

/-- `rgbToHsl` from `src/app.js` lines 100-133.  The `switch (max)` with
first-match semantics becomes a nested `if`. -/
def rgbToHsl (r g b : ℤ) : Hsl :=
  let r' : ℚ := r / 255
  let g' : ℚ := g / 255
  let b' : ℚ := b / 255
  let mx : ℚ := max (max r' g') b'
  let mn : ℚ := min (min r' g') b'
  let l : ℚ := (mx + mn) / 2
  let hs : ℚ × ℚ :=
    if mx = mn then (0, 0)
    else
      let d := mx - mn
      let s := if l > 1/2 then d / (2 - mx - mn) else d / (mx + mn)
      let h := if mx = r' then ((g' - b') / d + (if g' < b' then (6 : ℚ) else 0)) / 6
               else if mx = g' then ((b' - r') / d + 2) / 6
               else ((r' - g') / d + 4) / 6
      (h, s)
  ⟨mathRound (hs.1 * 360), mathRound (hs.2 * 100), mathRound (l * 100)⟩

/-- The `hue2rgb` helper closure inside `hslToRgb` (`src/app.js` lines 148-155). -/
def hue2rgb (p q t : ℚ) : ℚ :=
  let t := if t < 0 then t + 1 else t
  let t := if t > 1 then t - 1 else t
  if t < 1/6 then p + (q - p) * 6 * t
  else if t < 1/2 then q
  else if t < 2/3 then p + (q - p) * (2/3 - t) * 6
  else p

/-- `hslToRgb` from `src/app.js` lines 138-169.  It is called by
`correctColor` with non-integer hue and saturation, so the arguments are
rational. -/
def hslToRgb (h s l : ℚ) : Rgb :=
  let h := h / 360
  let s := s / 100
  let l := l / 100
  if s = 0 then
    ⟨mathRound (l * 255), mathRound (l * 255), mathRound (l * 255)⟩
  else
    let q := if l < 1/2 then l * (1 + s) else l + s - l * s
    let p := 2 * l - q
    ⟨mathRound (hue2rgb p q (h + 1/3) * 255),
     mathRound (hue2rgb p q h * 255),
     mathRound (hue2rgb p q (h - 1/3) * 255)⟩

/-- The color categories returned by `getColorCategory`. -/
inductive ColorCategory where
  | red | orange | yellow | green | teal | blue | purple | pink
deriving DecidableEq, Repr

/-- `getColorCategory` from `src/app.js` lines 206-216. -/
def getColorCategory (hue : ℤ) : ColorCategory :=
  if 0 ≤ hue ∧ hue < 15 then .red
  else if 15 ≤ hue ∧ hue < 45 then .orange
  else if 45 ≤ hue ∧ hue < 70 then .yellow
  else if 70 ≤ hue ∧ hue < 150 then .green
  else if 150 ≤ hue ∧ hue < 200 then .teal
  else if 200 ≤ hue ∧ hue < 260 then .blue
  else if 260 ≤ hue ∧ hue < 310 then .purple
  else if 310 ≤ hue ∧ hue < 340 then .pink
  else .red

/-- A hue correction rule: a closed hue interval plus optional channel
multipliers and a hue shift (every rule in the data supplies `hueShift`). -/
structure HueCorrection where
  range : ℤ × ℤ
  greenMultiplier : Option ℚ
  blueMultiplier : Option ℚ
  hueShift : ℚ
deriving DecidableEq, Repr

/-- A device profile (presentation-only fields `name`, `brand`, `software`
and `brightnessRecommendation` are omitted; no claim concerns them). -/
structure Profile where
  greenReduction : ℚ
  hueShift : ℚ
  saturationBoost : ℚ
  blueReduction : ℚ
  hueCorrections : List HueCorrection
deriving DecidableEq, Repr

/-- The keys of `DEVICE_PROFILES` in `src/unnamed/part_000` (a superset of
the three keys in `src/app.js`; the three shared profiles carry identical
correction data in both files). -/
inductive DeviceKey where
  | tlFans | strimer | slFans
  | corsairQl | corsairLl | corsairSp
  | nzxtAer | nzxtKraken | nzxtHue
  | cmMasterfan | cmSickleflow | cmHalos
deriving DecidableEq, Repr

/-- `DEVICE_PROFILES` from `src/unnamed/part_000` lines 8-198
(`src/app.js` lines 8-53 holds the first three entries with the same data). -/
def DEVICE_PROFILES : DeviceKey → Profile
  | .tlFans =>
    { greenReduction := 0.85, hueShift := -8, saturationBoost := 1.15, blueReduction := 0.7,
      hueCorrections :=
        [⟨(15, 45), some 0.08, none, -10⟩,
         ⟨(45, 65), some 0.15, none, -5⟩,
         ⟨(270, 300), none, some 0.85, 5⟩,
         ⟨(170, 200), some 0.9, none, 3⟩] }
  | .strimer =>
    { greenReduction := 0.80, hueShift := -10, saturationBoost := 1.2, blueReduction := 0.65,
      hueCorrections :=
        [⟨(15, 45), some 0.10, none, -12⟩,
         ⟨(45, 65), some 0.18, none, -6⟩,
         ⟨(270, 300), none, some 0.82, 6⟩,
         ⟨(170, 200), some 0.88, none, 4⟩] }
  | .slFans =>
    { greenReduction := 0.88, hueShift := -6, saturationBoost := 1.1, blueReduction := 0.75,
      hueCorrections :=
        [⟨(15, 45), some 0.12, none, -8⟩,
         ⟨(45, 65), some 0.20, none, -4⟩,
         ⟨(270, 300), none, some 0.88, 4⟩,
         ⟨(170, 200), some 0.92, none, 2⟩] }
  | .corsairQl =>
    { greenReduction := 0.73, hueShift := -12, saturationBoost := 1.2, blueReduction := 0.7,
      hueCorrections :=
        [⟨(15, 45), some 0.09, none, -15⟩,
         ⟨(45, 65), some 0.12, none, -8⟩,
         ⟨(270, 300), none, some 0.80, 8⟩,
         ⟨(170, 200), some 0.85, none, 5⟩] }
  | .corsairLl =>
    { greenReduction := 0.78, hueShift := -10, saturationBoost := 1.15, blueReduction := 0.72,
      hueCorrections :=
        [⟨(15, 45), some 0.10, none, -12⟩,
         ⟨(45, 65), some 0.15, none, -6⟩,
         ⟨(270, 300), none, some 0.82, 6⟩,
         ⟨(170, 200), some 0.88, none, 4⟩] }
  | .corsairSp =>
    { greenReduction := 0.80, hueShift := -8, saturationBoost := 1.1, blueReduction := 0.75,
      hueCorrections :=
        [⟨(15, 45), some 0.27, none, -10⟩,
         ⟨(45, 65), some 0.18, none, -5⟩,
         ⟨(270, 300), none, some 0.85, 5⟩,
         ⟨(170, 200), some 0.90, none, 3⟩] }
  | .nzxtAer =>
    { greenReduction := 0.82, hueShift := -8, saturationBoost := 1.15, blueReduction := 0.70,
      hueCorrections :=
        [⟨(15, 45), some 0.05, none, -12⟩,
         ⟨(45, 65), some 0.10, none, -8⟩,
         ⟨(270, 300), none, some 0.80, 8⟩,
         ⟨(170, 200), some 0.85, none, 5⟩] }
  | .nzxtKraken =>
    { greenReduction := 0.80, hueShift := -10, saturationBoost := 1.2, blueReduction := 0.68,
      hueCorrections :=
        [⟨(15, 45), some 0.02, none, -15⟩,
         ⟨(45, 65), some 0.08, none, -10⟩,
         ⟨(270, 300), none, some 0.78, 10⟩,
         ⟨(170, 200), some 0.82, none, 6⟩] }
  | .nzxtHue =>
    { greenReduction := 0.85, hueShift := -6, saturationBoost := 1.1, blueReduction := 0.75,
      hueCorrections :=
        [⟨(15, 45), some 0.08, none, -10⟩,
         ⟨(45, 65), some 0.12, none, -6⟩,
         ⟨(270, 300), none, some 0.85, 5⟩,
         ⟨(170, 200), some 0.88, none, 4⟩] }
  | .cmMasterfan =>
    { greenReduction := 0.85, hueShift := -5, saturationBoost := 1.1, blueReduction := 0.78,
      hueCorrections :=
        [⟨(15, 45), some 0.15, none, -8⟩,
         ⟨(45, 65), some 0.20, none, -4⟩,
         ⟨(270, 300), none, some 0.88, 4⟩,
         ⟨(170, 200), some 0.90, none, 2⟩] }
  | .cmSickleflow =>
    { greenReduction := 0.82, hueShift := -7, saturationBoost := 1.15, blueReduction := 0.75,
      hueCorrections :=
        [⟨(15, 45), some 0.12, none, -10⟩,
         ⟨(45, 65), some 0.18, none, -5⟩,
         ⟨(270, 300), none, some 0.85, 5⟩,
         ⟨(170, 200), some 0.88, none, 3⟩] }
  | .cmHalos =>
    { greenReduction := 0.80, hueShift := -8, saturationBoost := 1.2, blueReduction := 0.72,
      hueCorrections :=
        [⟨(15, 45), some 0.10, none, -12⟩,
         ⟨(45, 65), some 0.15, none, -6⟩,
         ⟨(270, 300), none, some 0.82, 6⟩,
         ⟨(170, 200), some 0.85, none, 4⟩] }

/-- The scan for a special correction rule in `correctColor`
(`src/app.js` lines 232-239): walk the list in order, first rule whose
closed interval contains the hue wins. -/
def findHueCorrection : List HueCorrection → ℤ → Option HueCorrection
  | [], _ => none
  | c :: rest, h => if c.range.1 ≤ h ∧ h ≤ c.range.2 then some c else findHueCorrection rest h

/-- The direct (pre-blend) correction state of `correctColor`: the working
variables `correctedR`, `correctedG`, `correctedB`, `correctedHue`. -/
structure DirectCorrection where
  cr : ℤ
  cg : ℤ
  cb : ℤ
  chue : ℚ
deriving DecidableEq, Repr

/-- The active-rule branch of `correctColor` (`src/app.js` lines 242-251). -/
def applySpecialCorrection (rgb : Rgb) (h : ℤ) (c : HueCorrection) : DirectCorrection :=
  let cg : ℤ :=
    match c.greenMultiplier with
    | some m => mathRound (rgb.g * m)
    | none => rgb.g
  let cb : ℤ :=
    match c.blueMultiplier with
    | some m => mathRound (rgb.b * m)
    | none => rgb.b
  ⟨rgb.r, cg, cb, max 0 (min 360 ((h : ℚ) + c.hueShift))⟩

/-- The no-active-rule branch of `correctColor` (`src/app.js` lines 252-268):
an independent warm correction (hue 0-90) and cool correction (hue 200-340). -/
def applyGeneralCorrection (rgb : Rgb) (h : ℤ) (profile : Profile) : DirectCorrection :=
  let warm : ℤ × ℚ :=
    if 0 ≤ h ∧ h ≤ 90 then
      let warmFactor : ℚ := 1 - (h : ℚ) / 90
      let greenReductionAmount := warmFactor * (1 - profile.greenReduction)
      (mathRound (rgb.g * (1 - greenReductionAmount)),
       max 0 ((h : ℚ) + profile.hueShift * warmFactor))
    else (rgb.g, (h : ℚ))
  let cb : ℤ :=
    if 200 ≤ h ∧ h ≤ 340 then
      let coolFactor : ℚ := 1 - |((h : ℚ) - 270) / 70|
      let blueReductionAmount := coolFactor * (1 - profile.blueReduction)
      mathRound (rgb.b * (1 - blueReductionAmount * 0.3))
    else rgb.b
  ⟨rgb.r, warm.1, cb, warm.2⟩

/-- The branch dispatch of `correctColor` (`src/app.js` lines 242-268):
the found rule's special correction, or the general warm/cool correction. -/
def directCorrection (rgb : Rgb) (profile : Profile) (hsl : Hsl) : DirectCorrection :=
  match findHueCorrection profile.hueCorrections hsl.h with
  | some specialCorrection => applySpecialCorrection rgb hsl.h specialCorrection
  | none => applyGeneralCorrection rgb hsl.h profile

/-- The saturation boost of `correctColor` (`src/app.js` line 271), applied
regardless of which branch ran. -/
def boostedSaturation (profile : Profile) (hsl : Hsl) : ℚ :=
  min 100 ((hsl.s : ℚ) * profile.saturationBoost)

/-- `correctColor` from `src/app.js` lines 221-288: rule scan, branch
correction, saturation boost, conditional HSL blend, final clamp. -/
def correctColor (rgb : Rgb) (deviceProfile : DeviceKey) : Rgb :=
  let profile := DEVICE_PROFILES deviceProfile
  let hsl := rgbToHsl rgb.r rgb.g rgb.b
  let direct : DirectCorrection := directCorrection rgb profile hsl
  let correctedSat : ℚ := boostedSaturation profile hsl
  let blended : ℤ × ℤ × ℤ :=
    if |direct.chue - (hsl.h : ℚ)| > 2 ∨ |correctedSat - (hsl.s : ℚ)| > 5 then
      let newRgb := hslToRgb direct.chue correctedSat (hsl.l : ℚ)
      (mathRound (((direct.cr + newRgb.r : ℤ) : ℚ) / 2),
       mathRound (((direct.cg + newRgb.g : ℤ) : ℚ) / 2),
       mathRound (((direct.cb + newRgb.b : ℤ) : ℚ) / 2))
    else (direct.cr, direct.cg, direct.cb)
  ⟨max 0 (min 255 blended.1), max 0 (min 255 blended.2.1), max 0 (min 255 blended.2.2)⟩

/-- The brightness adjustment applied to the corrected color in `updateUI`
(`src/unnamed/part_000` lines 469-475). -/
def applyBrightness (c : Rgb) (currentBrightness : ℤ) : Rgb :=
  let brightnessFactor : ℚ := (currentBrightness : ℚ) / 100
  ⟨mathRound (c.r * brightnessFactor),
   mathRound (c.g * brightnessFactor),
   mathRound (c.b * brightnessFactor)⟩

/-- The corrected color as displayed by `updateUI` in `src/unnamed/part_000`:
`correctColor` followed by the brightness adjustment. -/
def displayedCorrected (rgb : Rgb) (deviceProfile : DeviceKey) (currentBrightness : ℤ) : Rgb :=
  applyBrightness (correctColor rgb deviceProfile) currentBrightness

/-! ### Basic facts about `mathRound` and clamping -/

theorem mathRound_intCast (n : ℤ) : mathRound (n : ℚ) = n := by
  unfold mathRound
  rw [add_comm, Int.floor_add_int]
  norm_num

theorem clamp255_mem (x : ℤ) : 0 ≤ max 0 (min 255 x) ∧ max 0 (min 255 x) ≤ 255 := by
  refine ⟨le_max_left 0 _, max_le (by norm_num) (min_le_left 255 x)⟩

/-! ### C7 / C10: the hue classifier -/

/-- Claim C7: for every integer hue in `[0,360)`, `getColorCategory` realises
exactly the eight contiguous ranges `[0,15)=red, [15,45)=orange, [45,70)=yellow,
[70,150)=green, [150,200)=teal, [200,260)=blue, [260,310)=purple,
[310,340)=pink, [340,360)=red`, with no gaps or overlaps: the preimage of each
category is exactly the stated range, so every hue (boundary hues included)
resolves to the single category whose range contains it. -/
theorem getColorCategory_partition : ∀ h : ℤ, 0 ≤ h → h < 360 →
    (getColorCategory h = .red ↔ (h < 15 ∨ 340 ≤ h)) ∧
    (getColorCategory h = .orange ↔ (15 ≤ h ∧ h < 45)) ∧
    (getColorCategory h = .yellow ↔ (45 ≤ h ∧ h < 70)) ∧
    (getColorCategory h = .green ↔ (70 ≤ h ∧ h < 150)) ∧
    (getColorCategory h = .teal ↔ (150 ≤ h ∧ h < 200)) ∧
    (getColorCategory h = .blue ↔ (200 ≤ h ∧ h < 260)) ∧
    (getColorCategory h = .purple ↔ (260 ≤ h ∧ h < 310)) ∧
    (getColorCategory h = .pink ↔ (310 ≤ h ∧ h < 340)) := by
  intro h h0 h1
  unfold getColorCategory
  split_ifs <;> simp_all <;> omega

/-- Witness for C7: hue 45 is yellow (the category whose range it starts),
obtained from `getColorCategory_partition`. -/
theorem getColorCategory_partition_witness :
    getColorCategory 45 = ColorCategory.yellow :=
  ((getColorCategory_partition 45 (by decide) (by decide)).2.2.1).mpr (by decide)

/-- Claim C10: `getColorCategory` is total over all integers; any hue that is
negative or at least 360 falls through every range test and returns `red`
(so hue 400 yields `red`, not `orange`). -/
theorem getColorCategory_total_red : ∀ h : ℤ, h < 0 ∨ 360 ≤ h →
    getColorCategory h = ColorCategory.red := by
  intro h hh
  unfold getColorCategory
  split_ifs <;> first | rfl | omega

/-- Witness for C10: hue 400 yields `red`. -/
theorem getColorCategory_total_red_witness :
    getColorCategory 400 = ColorCategory.red :=
  getColorCategory_total_red 400 (Or.inr (by decide))

/-! ### C1: the corrected color is always clamped to `[0,255]` -/

/-- Claim C1: for every input RGB color with integer channels in `[0,255]` and
every profile key in the device profile registry, every channel of the color
returned by `correctColor` lies in `[0,255]` (the function clamps each
already-rounded channel before returning). -/
theorem correctColor_channels_in_range :
    ∀ (rgb : Rgb) (key : DeviceKey),
      0 ≤ rgb.r → rgb.r ≤ 255 → 0 ≤ rgb.g → rgb.g ≤ 255 → 0 ≤ rgb.b → rgb.b ≤ 255 →
      (0 ≤ (correctColor rgb key).r ∧ (correctColor rgb key).r ≤ 255) ∧
      (0 ≤ (correctColor rgb key).g ∧ (correctColor rgb key).g ≤ 255) ∧
      (0 ≤ (correctColor rgb key).b ∧ (correctColor rgb key).b ≤ 255) := by
  intro rgb key _ _ _ _ _ _
  obtain ⟨x, y, z, hxyz⟩ :
      ∃ x y z : ℤ, correctColor rgb key = ⟨max 0 (min 255 x), max 0 (min 255 y), max 0 (min 255 z)⟩ :=
    ⟨_, _, _, rfl⟩
  rw [hxyz]
  exact ⟨clamp255_mem x, clamp255_mem y, clamp255_mem z⟩

/-- Witness for C1: the default orange target on the default profile. -/
theorem correctColor_channels_in_range_witness :
    (0 ≤ (correctColor ⟨255, 102, 0⟩ .tlFans).r ∧ (correctColor ⟨255, 102, 0⟩ .tlFans).r ≤ 255) ∧
    (0 ≤ (correctColor ⟨255, 102, 0⟩ .tlFans).g ∧ (correctColor ⟨255, 102, 0⟩ .tlFans).g ≤ 255) ∧
    (0 ≤ (correctColor ⟨255, 102, 0⟩ .tlFans).b ∧ (correctColor ⟨255, 102, 0⟩ .tlFans).b ≤ 255) :=
  correctColor_channels_in_range ⟨255, 102, 0⟩ .tlFans (by decide) (by decide) (by decide)
    (by decide) (by decide) (by decide)

/-! ### C9: brightness scaling -/

/-- Claim C9: the displayed corrected color multiplies each corrected channel
by `brightnessPercent/100` and rounds, after correction; in particular at
brightness 50 each displayed channel is the rounded half of the corresponding
channel at brightness 100 (brightness 100 is the identity on the corrected
color). -/
theorem brightness_scaling :
    ∀ (rgb : Rgb) (key : DeviceKey) (p : ℤ),
      (displayedCorrected rgb key p =
        ⟨mathRound ((correctColor rgb key).r * ((p : ℚ) / 100)),
         mathRound ((correctColor rgb key).g * ((p : ℚ) / 100)),
         mathRound ((correctColor rgb key).b * ((p : ℚ) / 100))⟩) ∧
      displayedCorrected rgb key 100 = correctColor rgb key ∧
      (displayedCorrected rgb key 50).r
        = mathRound (((displayedCorrected rgb key 100).r : ℚ) / 2) ∧
      (displayedCorrected rgb key 50).g
        = mathRound (((displayedCorrected rgb key 100).g : ℚ) / 2) ∧
      (displayedCorrected rgb key 50).b
        = mathRound (((displayedCorrected rgb key 100).b : ℚ) / 2) := by
  intro rgb key p
  have h100 : displayedCorrected rgb key 100 = correctColor rgb key := by
    unfold displayedCorrected applyBrightness
    obtain ⟨x, y, z⟩ := correctColor rgb key
    have : ((100 : ℤ) : ℚ) / 100 = 1 := by norm_num
    simp only [this, mul_one, mathRound_intCast]
  have h50 : ∀ x : ℤ, mathRound ((x : ℚ) * (((50 : ℤ) : ℚ) / 100)) = mathRound ((x : ℚ) / 2) := by
    intro x
    congr 1
    push_cast
    ring
  refine ⟨rfl, h100, ?_, ?_, ?_⟩ <;>
    · rw [h100]
      unfold displayedCorrected applyBrightness
      obtain ⟨x, y, z⟩ := correctColor rgb key
      simpa using h50 _

/-! ### C2: first-match semantics of the hue correction rule scan -/

theorem findHueCorrection_eq_some_iff (rules : List HueCorrection) (h : ℤ) (c : HueCorrection) :
    findHueCorrection rules h = some c ↔
      ∃ i : ℕ, rules[i]? = some c ∧ (c.range.1 ≤ h ∧ h ≤ c.range.2) ∧
        ∀ j < i, ∀ cj : HueCorrection, rules[j]? = some cj →
          ¬(cj.range.1 ≤ h ∧ h ≤ cj.range.2) := by
  induction rules with
  | nil => simp [findHueCorrection]
  | cons c0 rest ih =>
    by_cases hc : c0.range.1 ≤ h ∧ h ≤ c0.range.2
    · simp only [findHueCorrection, if_pos hc]
      constructor
      · intro he
        obtain rfl : c0 = c := by simpa using he
        exact ⟨0, by simp, hc, by omega⟩
      · rintro ⟨i, hi, hci, hall⟩
        match i with
        | 0 =>
          obtain rfl : c0 = c := by simpa using hi
          rfl
        | n + 1 => exact absurd hc (hall 0 (by omega) c0 (by simp))
    · simp only [findHueCorrection, if_neg hc]
      rw [ih]
      constructor
      · rintro ⟨i, hi, hci, hall⟩
        refine ⟨i + 1, by simpa using hi, hci, ?_⟩
        intro j hj cj hcj
        match j with
        | 0 =>
          obtain rfl : c0 = cj := by simpa using hcj
          exact hc
        | k + 1 => exact hall k (by omega) cj (by simpa using hcj)
      · rintro ⟨i, hi, hci, hall⟩
        match i with
        | 0 =>
          obtain rfl : c0 = c := by simpa using hi
          exact absurd hci hc
        | n + 1 =>
          exact ⟨n, by simpa using hi, hci,
            fun j hj cj hcj => hall (j + 1) (by omega) cj (by simpa using hcj)⟩

theorem findHueCorrection_eq_none_of_no_match (rules : List HueCorrection) (h : ℤ)
    (hno : ∀ c ∈ rules, ¬(c.range.1 ≤ h ∧ h ≤ c.range.2)) :
    findHueCorrection rules h = none := by
  induction rules with
  | nil => rfl
  | cons c0 rest ih =>
    have h0 : ¬(c0.range.1 ≤ h ∧ h ≤ c0.range.2) := hno c0 (by simp)
    simp only [findHueCorrection, if_neg h0]
    exact ih fun c hcmem => hno c (by simp [hcmem])

/-- Claim C2: the rule scan in `correctColor` walks the profile's
`hueCorrections` in declared order and the first rule whose closed interval
`[min,max]` contains the hue (inclusive at both endpoints) is returned, even
when a later rule's interval also contains the hue; with no containing rule
the scan yields `none`.  Concretely, for hue 45 under profile `tl-fans` the
first-declared `[15,45]` rule is returned although the `[45,65]` rule also
contains 45. -/
theorem findHueCorrection_first_match_spec :
    (∀ (rules : List HueCorrection) (h : ℤ) (c : HueCorrection),
       findHueCorrection rules h = some c ↔
         ∃ i : ℕ, rules[i]? = some c ∧ (c.range.1 ≤ h ∧ h ≤ c.range.2) ∧
           ∀ j < i, ∀ cj : HueCorrection, rules[j]? = some cj →
             ¬(cj.range.1 ≤ h ∧ h ≤ cj.range.2)) ∧
    (∀ (rules : List HueCorrection) (h : ℤ),
       (∀ c ∈ rules, ¬(c.range.1 ≤ h ∧ h ≤ c.range.2)) →
         findHueCorrection rules h = none) ∧
    (findHueCorrection (DEVICE_PROFILES .tlFans).hueCorrections 45
        = some ⟨(15, 45), some 0.08, none, -10⟩ ∧
     ((DEVICE_PROFILES .tlFans).hueCorrections[1]? = some ⟨(45, 65), some 0.15, none, -5⟩ ∧
      (45 : ℤ) ≤ 45 ∧ (45 : ℤ) ≤ 65)) :=
  ⟨findHueCorrection_eq_some_iff, findHueCorrection_eq_none_of_no_match,
   ⟨rfl, rfl, by decide, by decide⟩⟩

/-- Witness for C2: instantiate the first-match characterisation at the
`tl-fans` rule list and hue 45. -/
theorem findHueCorrection_first_match_spec_witness :
    findHueCorrection (DEVICE_PROFILES .tlFans).hueCorrections 45
      = some ⟨(15, 45), some 0.08, none, -10⟩ :=
  (findHueCorrection_first_match_spec.1 (DEVICE_PROFILES .tlFans).hueCorrections 45
      ⟨(15, 45), some 0.08, none, -10⟩).mpr
    ⟨0, rfl, ⟨by decide, by decide⟩, by omega⟩

/-! ### C3: the no-active-rule branch -/

/-- Claim C3: in `correctColor`'s no-active-rule branch, a hue in `[0,90]`
turns the green channel into
`round(g * (1 - warmFactor * (1 - greenReduction)))` with
`warmFactor = 1 - h/90` and the corrected hue into
`max(0, h + hueShift * warmFactor)`; independently, a hue in `[200,340]`
turns the blue channel into
`round(b * (1 - coolFactor * (1 - blueReduction) * 0.3))` with
`coolFactor = 1 - |h - 270|/70`; a hue outside both ranges leaves every
channel unchanged. -/
theorem applyGeneralCorrection_noRule_spec :
    ∀ (rgb : Rgb) (h : ℤ) (p : Profile),
      ((0 ≤ h ∧ h ≤ 90) →
        (applyGeneralCorrection rgb h p).cg
            = mathRound (rgb.g * (1 - (1 - (h : ℚ) / 90) * (1 - p.greenReduction))) ∧
        (applyGeneralCorrection rgb h p).chue
            = max 0 ((h : ℚ) + p.hueShift * (1 - (h : ℚ) / 90))) ∧
    ((200 ≤ h ∧ h ≤ 340) →
        (applyGeneralCorrection rgb h p).cb
            = mathRound (rgb.b * (1 - (1 - |(h : ℚ) - 270| / 70) * (1 - p.blueReduction) * 0.3))) ∧
    (¬(0 ≤ h ∧ h ≤ 90) → ¬(200 ≤ h ∧ h ≤ 340) →
        (applyGeneralCorrection rgb h p).cr = rgb.r ∧
        (applyGeneralCorrection rgb h p).cg = rgb.g ∧
        (applyGeneralCorrection rgb h p).cb = rgb.b) := by
  intro rgb h p
  refine ⟨fun hw => ?_, fun hc => ?_, fun hnw hnc => ?_⟩
  · unfold applyGeneralCorrection
    rw [if_pos hw]
    exact ⟨rfl, rfl⟩
  · unfold applyGeneralCorrection
    rw [if_pos hc]
    rw [abs_div]
    norm_num
  · unfold applyGeneralCorrection
    rw [if_neg hnw, if_neg hnc]
    exact ⟨rfl, rfl, rfl⟩

/-- Witness for C3: hue 45 (warm), hue 270 (cool), hue 150 (neither). -/
theorem applyGeneralCorrection_noRule_spec_witness :
    ((applyGeneralCorrection ⟨255, 102, 0⟩ 45 (DEVICE_PROFILES .tlFans)).cg
        = mathRound ((102 : ℚ) * (1 - (1 - (45 : ℚ) / 90) * (1 - 0.85)))
      ∧ (applyGeneralCorrection ⟨0, 0, 255⟩ 150 (DEVICE_PROFILES .tlFans)).cb = 255) := by
  constructor
  · have h1 := (applyGeneralCorrection_noRule_spec ⟨255, 102, 0⟩ 45 (DEVICE_PROFILES .tlFans)).1
      (by decide)
    rw [h1.1]
    norm_num [DEVICE_PROFILES]
  · have h2 := (applyGeneralCorrection_noRule_spec ⟨0, 0, 255⟩ 150 (DEVICE_PROFILES .tlFans)).2.2
      (by decide) (by decide)
    exact h2.2.2

/-! ### C4: saturation boost and reconciliation blend -/

/-- Claim C4: for every input and profile the corrected saturation is
`min(100, hsl.s * saturationBoost)` whichever branch ran; and exactly when
`|correctedHue - hue| > 2` or `|correctedSat - sat| > 5`, an RGB triple is
recomputed by `hslToRgb` from the corrected hue, the corrected saturation and
the original lightness, and each output channel is the rounded channel-wise
average of the directly corrected channel and this HSL-derived channel;
otherwise the directly corrected channels are kept unblended (the final
clamp applies in both cases). -/
theorem correctColor_saturation_blend_spec :
    ∀ (rgb : Rgb) (key : DeviceKey) (hsl : Hsl) (direct : DirectCorrection) (sat : ℚ),
      hsl = rgbToHsl rgb.r rgb.g rgb.b →
      direct = directCorrection rgb (DEVICE_PROFILES key) hsl →
      sat = boostedSaturation (DEVICE_PROFILES key) hsl →
      sat = min 100 ((hsl.s : ℚ) * (DEVICE_PROFILES key).saturationBoost) ∧
      ((|direct.chue - (hsl.h : ℚ)| > 2 ∨ |sat - (hsl.s : ℚ)| > 5) →
         correctColor rgb key =
           ⟨max 0 (min 255 (mathRound
              (((direct.cr + (hslToRgb direct.chue sat (hsl.l : ℚ)).r : ℤ) : ℚ) / 2))),
            max 0 (min 255 (mathRound
              (((direct.cg + (hslToRgb direct.chue sat (hsl.l : ℚ)).g : ℤ) : ℚ) / 2))),
            max 0 (min 255 (mathRound
              (((direct.cb + (hslToRgb direct.chue sat (hsl.l : ℚ)).b : ℤ) : ℚ) / 2)))⟩) ∧
      (¬(|direct.chue - (hsl.h : ℚ)| > 2 ∨ |sat - (hsl.s : ℚ)| > 5) →
         correctColor rgb key =
           ⟨max 0 (min 255 direct.cr), max 0 (min 255 direct.cg), max 0 (min 255 direct.cb)⟩) := by
  intro rgb key hsl direct sat hhsl hdirect hsat
  subst hhsl
  subst hdirect
  subst hsat
  refine ⟨rfl, fun hcond => ?_, fun hcond => ?_⟩
  · simp only [correctColor]
    rw [if_pos hcond]
  · simp only [correctColor]
    rw [if_neg hcond]

/-- Witness for C4: the achromatic input `(128,128,128)` on `tl-fans` has
corrected hue 0 and corrected saturation 0, so no blend fires and the output
is the clamped direct correction. -/
theorem correctColor_saturation_blend_spec_witness :
    correctColor ⟨128, 128, 128⟩ .tlFans =
      ⟨max 0 (min 255 (directCorrection ⟨128, 128, 128⟩ (DEVICE_PROFILES .tlFans)
          (rgbToHsl 128 128 128)).cr),
       max 0 (min 255 (directCorrection ⟨128, 128, 128⟩ (DEVICE_PROFILES .tlFans)
          (rgbToHsl 128 128 128)).cg),
       max 0 (min 255 (directCorrection ⟨128, 128, 128⟩ (DEVICE_PROFILES .tlFans)
          (rgbToHsl 128 128 128)).cb)⟩ :=
  (correctColor_saturation_blend_spec ⟨128, 128, 128⟩ .tlFans
      (rgbToHsl 128 128 128)
      (directCorrection ⟨128, 128, 128⟩ (DEVICE_PROFILES .tlFans) (rgbToHsl 128 128 128))
      (boostedSaturation (DEVICE_PROFILES .tlFans) (rgbToHsl 128 128 128))
      rfl rfl rfl).2.2
    (by norm_num [rgbToHsl, directCorrection, findHueCorrection, applyGeneralCorrection,
      boostedSaturation, DEVICE_PROFILES, mathRound])

/-! ### Hex conversion (`rgbToHex`, `hexToRgb`, `isValidHex`)

Strings are embedded as `List Char`.  The only string operations the source
uses are ASCII ones: `toUpperCase`, the regex character class `[a-f\d]` with
the `i` flag, `parseInt(-, 16)` on hex digits, and `toString(16)` on values
in `[0,255]`.  Each is modelled on the character code (`Char.toNat`). -/

/-- ASCII uppercasing of one character code (`String.prototype.toUpperCase`
acts exactly like this on the ASCII output of `rgbToHex`). -/
def upperN (n : ℕ) : ℕ := if 97 ≤ n ∧ n ≤ 122 then n - 32 else n

/-- ASCII `toUpperCase` on one character. -/
def upperChar (c : Char) : Char := Char.ofNat (upperN c.toNat)

/-- The regex character class `[a-f\d]` under the case-insensitive flag,
on a character code. -/
def isHexDigitN (n : ℕ) : Bool :=
  decide ((48 ≤ n ∧ n ≤ 57) ∨ (97 ≤ n ∧ n ≤ 102) ∨ (65 ≤ n ∧ n ≤ 70))

/-- The regex character class `[a-f\d]` under the case-insensitive flag. -/
def isHexDigitChar (c : Char) : Bool := isHexDigitN c.toNat

/-- `parseInt(-, 16)` value of one hex digit character code. -/
def hexValN (n : ℕ) : ℕ :=
  if n ≤ 57 then n - 48 else if 97 ≤ n then n - 87 else n - 55

/-- `parseInt(-, 16)` value of one hex digit character. -/
def hexDigitVal (c : Char) : ℕ := hexValN c.toNat

/-- The digit characters produced by `Number.prototype.toString(16)`
(lowercase `0-9a-f`). -/
def hexDigitChar (n : ℕ) : Char := Char.ofNat (if n < 10 then 48 + n else 87 + n)

/-- The `toHex` closure inside `rgbToHex` (`src/app.js` lines 175-178):
clamp and round the channel, render in base 16, pad to two digits. -/
def toHex (n : ℚ) : List Char :=
  let m := (max 0 (min 255 (mathRound n))).toNat
  let hex := if m < 16 then [hexDigitChar m]
             else [hexDigitChar (m / 16), hexDigitChar (m % 16)]
  if hex.length = 1 then '0' :: hex else hex

/-- `rgbToHex` from `src/app.js` lines 174-180: build `#rrggbb` and
uppercase the whole string. -/
def rgbToHex (r g b : ℚ) : List Char :=
  ('#' :: (toHex r ++ toHex g ++ toHex b)).map upperChar

/-- The optional leading `#` accepted by the `#?` prefix of the regexes in
`hexToRgb` (line 186) and `isValidHex` (line 198). -/
def stripHash (s : List Char) : List Char :=
  match s with
  | c :: rest => if c = '#' then rest else c :: rest
  | [] => []

/-- `hexToRgb` from `src/app.js` lines 185-192: the anchored regex
`^#?([a-f\d]{2})([a-f\d]{2})([a-f\d]{2})$/i` followed by `parseInt(-, 16)`
on the three capture groups; `null` (here `none`) on no match. -/
def hexToRgb (hex : List Char) : Option Rgb :=
  match stripHash hex with
  | [c1, c2, c3, c4, c5, c6] =>
    if isHexDigitChar c1 && isHexDigitChar c2 && isHexDigitChar c3 &&
       isHexDigitChar c4 && isHexDigitChar c5 && isHexDigitChar c6 then
      some ⟨((16 * hexDigitVal c1 + hexDigitVal c2 : ℕ) : ℤ),
            ((16 * hexDigitVal c3 + hexDigitVal c4 : ℕ) : ℤ),
            ((16 * hexDigitVal c5 + hexDigitVal c6 : ℕ) : ℤ)⟩
    else none
  | _ => none

/-- `isValidHex` from `src/app.js` lines 197-199: the anchored regex
`^#?([a-f\d]{6})$/i` as a predicate. -/
def isValidHex (hex : List Char) : Bool :=
  (stripHash hex).length = 6 && (stripHash hex).all isHexDigitChar

theorem hexDigitChar_props : ∀ d < 16,
    isHexDigitChar (hexDigitChar d) = true ∧
    isHexDigitChar (upperChar (hexDigitChar d)) = true ∧
    hexDigitVal (hexDigitChar d) = d ∧
    hexDigitVal (upperChar (hexDigitChar d)) = d := by decide

theorem upperChar_hash : upperChar '#' = '#' := by decide

theorem hex_char_upper_roundtrip (c : Char) (hc : isHexDigitChar c = true) :
    hexDigitVal c < 16 ∧ upperChar (hexDigitChar (hexDigitVal c)) = upperChar c := by
  unfold isHexDigitChar isHexDigitN at hc
  rw [decide_eq_true_eq] at hc
  unfold hexDigitVal upperChar
  generalize hn : c.toNat = n at *
  rcases hc with ⟨h1, h2⟩ | ⟨h1, h2⟩ | ⟨h1, h2⟩ <;> interval_cases n <;> decide

theorem toHex_ofNat (m : ℕ) (hm : m ≤ 255) :
    toHex ((m : ℤ) : ℚ) = [hexDigitChar (m / 16), hexDigitChar (m % 16)] := by
  unfold toHex
  rw [mathRound_intCast]
  have hclamp : max 0 (min 255 (m : ℤ)) = (m : ℤ) := by omega
  rw [hclamp, Int.toNat_natCast]
  dsimp only
  by_cases h16 : m < 16
  · rw [if_pos h16]
    have h0 : m / 16 = 0 := Nat.div_eq_of_lt h16
    have h1 : m % 16 = m := Nat.mod_eq_of_lt h16
    simp [h0, h1]
    decide
  · rw [if_neg h16]
    simp

theorem toHex_upper_digits (m : ℕ) (hm : m ≤ 255) :
    (toHex ((m : ℤ) : ℚ)).map upperChar
        = [upperChar (hexDigitChar (m / 16)), upperChar (hexDigitChar (m % 16))] ∧
      isHexDigitChar (upperChar (hexDigitChar (m / 16))) = true ∧
      isHexDigitChar (upperChar (hexDigitChar (m % 16))) = true ∧
      hexDigitVal (upperChar (hexDigitChar (m / 16))) = m / 16 ∧
      hexDigitVal (upperChar (hexDigitChar (m % 16))) = m % 16 := by
  have hd : m / 16 < 16 := by omega
  have hr : m % 16 < 16 := by omega
  have pd := hexDigitChar_props (m / 16) hd
  have pr := hexDigitChar_props (m % 16) hr
  rw [toHex_ofNat m hm]
  exact ⟨by simp, pd.2.1, pr.2.1, pd.2.2.2, pr.2.2.2⟩

theorem stripHash_cons_hash (rest : List Char) : stripHash ('#' :: rest) = rest := by
  simp [stripHash]

theorem stripHash_no_hash (s : List Char) (hs : ∀ rest, s ≠ '#' :: rest) :
    stripHash s = s := by
  rcases s with _ | ⟨c, rest⟩
  · rfl
  · have hc : c ≠ '#' := fun h => hs rest (by rw [h])
    simp [stripHash, hc]

theorem stripHash_cases (s : List Char) : s = '#' :: stripHash s ∨ s = stripHash s := by
  rcases s with _ | ⟨c, rest⟩
  · right
    rfl
  · by_cases hc : c = '#'
    · subst hc
      left
      rw [stripHash_cons_hash]
    · right
      rw [stripHash_no_hash]
      intro rest' heq
      exact hc (by injection heq)

theorem hexToRgb_roundtrip_of_rgbToHex (r g b : ℤ)
    (hr0 : 0 ≤ r) (hr1 : r ≤ 255) (hg0 : 0 ≤ g) (hg1 : g ≤ 255)
    (hb0 : 0 ≤ b) (hb1 : b ≤ 255) :
    hexToRgb (rgbToHex (r : ℚ) (g : ℚ) (b : ℚ)) = some ⟨r, g, b⟩ := by
  obtain ⟨rn, rfl⟩ : ∃ n : ℕ, r = (n : ℤ) := ⟨r.toNat, (Int.toNat_of_nonneg hr0).symm⟩
  obtain ⟨gn, rfl⟩ : ∃ n : ℕ, g = (n : ℤ) := ⟨g.toNat, (Int.toNat_of_nonneg hg0).symm⟩
  obtain ⟨bn, rfl⟩ : ∃ n : ℕ, b = (n : ℤ) := ⟨b.toNat, (Int.toNat_of_nonneg hb0).symm⟩
  have hrn : rn ≤ 255 := by omega
  have hgn : gn ≤ 255 := by omega
  have hbn : bn ≤ 255 := by omega
  obtain ⟨hrmap, hrd1, hrd2, hrv1, hrv2⟩ := toHex_upper_digits rn hrn
  obtain ⟨hgmap, hgd1, hgd2, hgv1, hgv2⟩ := toHex_upper_digits gn hgn
  obtain ⟨hbmap, hbd1, hbd2, hbv1, hbv2⟩ := toHex_upper_digits bn hbn
  unfold rgbToHex
  rw [List.map_cons, upperChar_hash, List.map_append, List.map_append,
    hrmap, hgmap, hbmap]
  unfold hexToRgb
  rw [stripHash_cons_hash]
  simp only [List.cons_append, List.nil_append]
  rw [hrd1, hrd2, hgd1, hgd2, hbd1, hbd2]
  simp only [Bool.and_self, if_pos]
  rw [hrv1, hrv2, hgv1, hgv2, hbv1, hbv2]
  have hr : 16 * (rn / 16) + rn % 16 = rn := by omega
  have hg : 16 * (gn / 16) + gn % 16 = gn := by omega
  have hb : 16 * (bn / 16) + bn % 16 = bn := by omega
  rw [hr, hg, hb]

theorem hexToRgb_none_iff (s : List Char) :
    hexToRgb s = none ↔ isValidHex s = false := by
  unfold hexToRgb isValidHex
  rcases htl : stripHash s with _ | ⟨c1, _ | ⟨c2, _ | ⟨c3, _ | ⟨c4, _ | ⟨c5, _ | ⟨c6, _ | ⟨c7, rest⟩⟩⟩⟩⟩⟩⟩ <;>
    simp [List.all_cons]

theorem isHexDigitChar_hash : isHexDigitChar '#' = false := by decide

theorem isValidHex_iff_grammar (s : List Char) :
    isValidHex s = true ↔
      ∃ t : List Char, (s = '#' :: t ∨ s = t) ∧ t.length = 6 ∧
        ∀ c ∈ t, isHexDigitChar c = true := by
  constructor
  · intro hv
    unfold isValidHex at hv
    simp only [Bool.and_eq_true, decide_eq_true_eq, List.all_eq_true] at hv
    exact ⟨stripHash s, stripHash_cases s, hv.1, hv.2⟩
  · rintro ⟨t, hst, hlen, hhex⟩
    have ht : stripHash s = t := by
      rcases hst with rfl | rfl
      · exact stripHash_cons_hash t
      · apply stripHash_no_hash
        intro rest heq
        have hmem := hhex '#' (by rw [heq]; exact List.mem_cons_self _ _)
        rw [isHexDigitChar_hash] at hmem
        exact Bool.false_ne_true hmem
    unfold isValidHex
    rw [ht]
    simp only [Bool.and_eq_true, decide_eq_true_eq, List.all_eq_true]
    exact ⟨hlen, hhex⟩

theorem hexToRgb_parses (s : List Char) (c1 c2 c3 c4 c5 c6 : Char)
    (ht : stripHash s = [c1, c2, c3, c4, c5, c6])
    (hhex : ∀ c ∈ stripHash s, isHexDigitChar c = true) :
    hexToRgb s = some ⟨((16 * hexDigitVal c1 + hexDigitVal c2 : ℕ) : ℤ),
                       ((16 * hexDigitVal c3 + hexDigitVal c4 : ℕ) : ℤ),
                       ((16 * hexDigitVal c5 + hexDigitVal c6 : ℕ) : ℤ)⟩ := by
  rw [ht] at hhex
  have h1 := hhex c1 (by simp)
  have h2 := hhex c2 (by simp)
  have h3 := hhex c3 (by simp)
  have h4 := hhex c4 (by simp)
  have h5 := hhex c5 (by simp)
  have h6 := hhex c6 (by simp)
  unfold hexToRgb
  rw [ht]
  simp [h1, h2, h3, h4, h5, h6]

theorem rgbToHex_of_parsed (c1 c2 c3 c4 c5 c6 : Char)
    (h1 : isHexDigitChar c1 = true) (h2 : isHexDigitChar c2 = true)
    (h3 : isHexDigitChar c3 = true) (h4 : isHexDigitChar c4 = true)
    (h5 : isHexDigitChar c5 = true) (h6 : isHexDigitChar c6 = true) :
    rgbToHex (((16 * hexDigitVal c1 + hexDigitVal c2 : ℕ) : ℤ) : ℚ)
             (((16 * hexDigitVal c3 + hexDigitVal c4 : ℕ) : ℤ) : ℚ)
             (((16 * hexDigitVal c5 + hexDigitVal c6 : ℕ) : ℤ) : ℚ)
        = '#' :: [c1, c2, c3, c4, c5, c6].map upperChar := by
  obtain ⟨hv1, hu1⟩ := hex_char_upper_roundtrip c1 h1
  obtain ⟨hv2, hu2⟩ := hex_char_upper_roundtrip c2 h2
  obtain ⟨hv3, hu3⟩ := hex_char_upper_roundtrip c3 h3
  obtain ⟨hv4, hu4⟩ := hex_char_upper_roundtrip c4 h4
  obtain ⟨hv5, hu5⟩ := hex_char_upper_roundtrip c5 h5
  obtain ⟨hv6, hu6⟩ := hex_char_upper_roundtrip c6 h6
  have e1 : (16 * hexDigitVal c1 + hexDigitVal c2) / 16 = hexDigitVal c1 := by omega
  have e2 : (16 * hexDigitVal c1 + hexDigitVal c2) % 16 = hexDigitVal c2 := by omega
  have e3 : (16 * hexDigitVal c3 + hexDigitVal c4) / 16 = hexDigitVal c3 := by omega
  have e4 : (16 * hexDigitVal c3 + hexDigitVal c4) % 16 = hexDigitVal c4 := by omega
  have e5 : (16 * hexDigitVal c5 + hexDigitVal c6) / 16 = hexDigitVal c5 := by omega
  have e6 : (16 * hexDigitVal c5 + hexDigitVal c6) % 16 = hexDigitVal c6 := by omega
  unfold rgbToHex
  rw [List.map_cons, upperChar_hash, List.map_append, List.map_append,
    (toHex_upper_digits _ (by omega)).1, (toHex_upper_digits _ (by omega)).1,
    (toHex_upper_digits _ (by omega)).1, e1, e2, e3, e4, e5, e6,
    hu1, hu2, hu3, hu4, hu5, hu6]
  simp

/-- Claim C5: the hex round trip is exact in both directions.  For integer
channels in `[0,255]`, `hexToRgb (rgbToHex r g b)` returns exactly `{r,g,b}`;
and for every string accepted by `isValidHex` (either letter case, optional
leading `#`), `rgbToHex` applied to the parse result reproduces the input
normalized to uppercase with a leading `#`. -/
theorem hex_roundtrip_exact :
    (∀ r g b : ℤ, 0 ≤ r → r ≤ 255 → 0 ≤ g → g ≤ 255 → 0 ≤ b → b ≤ 255 →
       hexToRgb (rgbToHex (r : ℚ) (g : ℚ) (b : ℚ)) = some ⟨r, g, b⟩) ∧
    (∀ s : List Char, isValidHex s = true →
       ∃ c : Rgb, hexToRgb s = some c ∧
         rgbToHex (c.r : ℚ) (c.g : ℚ) (c.b : ℚ) = '#' :: (stripHash s).map upperChar) := by
  constructor
  · exact hexToRgb_roundtrip_of_rgbToHex
  · intro s hv
    have hg := (isValidHex_iff_grammar s).mp hv
    unfold isValidHex at hv
    simp only [Bool.and_eq_true, decide_eq_true_eq, List.all_eq_true] at hv
    obtain ⟨hlen, hhex⟩ := hv
    rcases ht : stripHash s with _ | ⟨c1, _ | ⟨c2, _ | ⟨c3, _ | ⟨c4, _ | ⟨c5, _ | ⟨c6, _ | ⟨c7, rest⟩⟩⟩⟩⟩⟩⟩ <;>
      rw [ht] at hlen <;> simp at hlen
    rw [ht] at hhex
    refine ⟨_, hexToRgb_parses s c1 c2 c3 c4 c5 c6 ht (by rw [ht]; exact hhex), ?_⟩
    exact rgbToHex_of_parsed c1 c2 c3 c4 c5 c6
      (hhex c1 (by simp)) (hhex c2 (by simp)) (hhex c3 (by simp))
      (hhex c4 (by simp)) (hhex c5 (by simp)) (hhex c6 (by simp))

/-- Witness for C5: round trip both ways at `(255,102,0)` and at the string
`#ff6600` (lowercase, with `#`). -/
theorem hex_roundtrip_exact_witness :
    hexToRgb (rgbToHex ((255 : ℤ) : ℚ) ((102 : ℤ) : ℚ) ((0 : ℤ) : ℚ)) = some ⟨255, 102, 0⟩ ∧
    ∃ c : Rgb, hexToRgb ['#', 'f', 'f', '6', '6', '0', '0'] = some c ∧
      rgbToHex (c.r : ℚ) (c.g : ℚ) (c.b : ℚ)
        = '#' :: (stripHash ['#', 'f', 'f', '6', '6', '0', '0']).map upperChar :=
  ⟨hex_roundtrip_exact.1 255 102 0 (by decide) (by decide) (by decide) (by decide)
      (by decide) (by decide),
   hex_roundtrip_exact.2 ['#', 'f', 'f', '6', '6', '0', '0'] (by decide)⟩

/-- Claim C8: `hexToRgb` returns a failure value (`none`, never a thrown
fault) exactly on the strings rejected by the grammar "optional leading `#`
then exactly 6 hex digits"; `isValidHex` accepts exactly that grammar, so
`hexToRgb` succeeds iff `isValidHex` accepts; on success the three parsed
channels are returned. -/
theorem hexToRgb_failure_iff_invalid :
    ∀ s : List Char,
      (hexToRgb s = none ↔ isValidHex s = false) ∧
      (isValidHex s = true ↔
        ∃ t : List Char, (s = '#' :: t ∨ s = t) ∧ t.length = 6 ∧
          ∀ c ∈ t, isHexDigitChar c = true) ∧
      (∀ c1 c2 c3 c4 c5 c6 : Char,
        stripHash s = [c1, c2, c3, c4, c5, c6] →
        (∀ c ∈ stripHash s, isHexDigitChar c = true) →
        hexToRgb s = some ⟨((16 * hexDigitVal c1 + hexDigitVal c2 : ℕ) : ℤ),
                           ((16 * hexDigitVal c3 + hexDigitVal c4 : ℕ) : ℤ),
                           ((16 * hexDigitVal c5 + hexDigitVal c6 : ℕ) : ℤ)⟩) :=
  fun s => ⟨hexToRgb_none_iff s, isValidHex_iff_grammar s, hexToRgb_parses s⟩

/-- Witness for C8: the malformed string `#12G456` is rejected with `none`
(`G` is not a hex digit), via the failure characterisation. -/
theorem hexToRgb_failure_iff_invalid_witness :
    hexToRgb ['#', '1', '2', 'G', '4', '5', '6'] = none :=
  (hexToRgb_failure_iff_invalid ['#', '1', '2', 'G', '4', '5', '6']).1.mpr (by decide)

/-! ### C6: quantitative analysis of the HSL round trip

The spec claims the `rgbToHsl`/`hslToRgb` round trip is exact to ±1 per
channel.  That is false (the integer rounding of hue, saturation and
lightness can move a channel by up to 5), and the sharp bound is ±5.
The development below proves the ±5 bound analytically: the rounded
saturation/lightness move the `p`/`q` values of `hslToRgb` by at most
`1/80` (lemma `qval_close`), the rounded hue moves the interpolation
weight by at most `1/120`, and the final rounding adds at most `1/2`. -/

theorem mathRound_dist (q : ℚ) : |((mathRound q : ℤ) : ℚ) - q| ≤ 1/2 := by
  unfold mathRound
  have h1 : (⌊q + 1/2⌋ : ℚ) ≤ q + 1/2 := Int.floor_le _
  have h2 : q + 1/2 < (⌊q + 1/2⌋ : ℚ) + 1 := Int.lt_floor_add_one _
  rw [abs_le]
  constructor <;> linarith

theorem mathRound_mem (q : ℚ) (a b : ℤ) (ha : (a : ℚ) ≤ q) (hb : q ≤ (b : ℚ)) :
    a ≤ mathRound q ∧ mathRound q ≤ b := by
  have hd := mathRound_dist q
  rw [abs_le] at hd
  constructor
  · have : (a : ℚ) < (mathRound q : ℚ) + 1 := by linarith
    exact_mod_cast Int.lt_add_one_iff.mp (by exact_mod_cast this)
  · have : (mathRound q : ℚ) < (b : ℚ) + 1 := by linarith
    exact_mod_cast Int.lt_add_one_iff.mp (by exact_mod_cast this)

theorem mathRound_close (x : ℚ) (n : ℤ) (hb : |x - (n : ℚ)| ≤ 43/8) :
    |mathRound x - n| ≤ 5 := by
  have hd := mathRound_dist x
  rw [abs_le] at hd hb
  have l1 : ((mathRound x - n : ℤ) : ℚ) < 6 := by push_cast; linarith
  have l2 : (-6 : ℚ) < ((mathRound x - n : ℤ) : ℚ) := by push_cast; linarith
  have i1 : mathRound x - n < 6 := by exact_mod_cast l1
  have i2 : (-6 : ℤ) < mathRound x - n := by exact_mod_cast l2
  rw [abs_le]
  omega

/-- The saturation expression of `rgbToHsl` as a function of the exact
maximum `u` and minimum `v` (both already divided by 255). -/
def satExact (u v : ℚ) : ℚ :=
  if (u + v) / 2 > 1/2 then (u - v) / (2 - u - v) else (u - v) / (u + v)

/-- The `q` value of `hslToRgb` as a function of saturation and lightness
(both already divided by 100). -/
def qval (s l : ℚ) : ℚ := if l < 1/2 then l * (1 + s) else l + s - l * s

theorem satExact_mem (u v : ℚ) (h0 : 0 ≤ v) (hvu : v < u) (hu : u ≤ 1) :
    0 ≤ satExact u v ∧ satExact u v ≤ 1 ∧ (u - v) / 2 ≤ satExact u v := by
  unfold satExact
  have huv : 0 < u - v := by linarith
  split_ifs with h
  · have hden : 0 < 2 - u - v := by linarith
    refine ⟨le_of_lt (div_pos huv hden), ?_, ?_⟩
    · rw [div_le_one hden]
      linarith
    · rw [div_le_div_iff₀ (by norm_num) hden]
      nlinarith
  · have hden : 0 < u + v := by linarith
    refine ⟨le_of_lt (div_pos huv hden), ?_, ?_⟩
    · rw [div_le_one hden]
      linarith
    · rw [div_le_div_iff₀ (by norm_num) hden]
      nlinarith

theorem qval_exact (u v : ℚ) (h0 : 0 ≤ v) (hvu : v < u) (hu : u ≤ 1) :
    qval (satExact u v) ((u + v) / 2) = u ∧
    2 * ((u + v) / 2) - qval (satExact u v) ((u + v) / 2) = v := by
  have huv0 : 0 < u + v := by linarith
  have huv2 : 0 < 2 - u - v := by linarith
  unfold qval satExact
  split_ifs with h1 h2 h2
  · exact absurd h1 (by linarith)
  · constructor
    · field_simp
      ring
    · field_simp
      ring
  · constructor
    · field_simp
      ring
    · field_simp
      ring
  · -- (u+v)/2 = 1/2 exactly
    have he : u + v = 1 := by linarith
    constructor
    · field_simp [he]
      nlinarith [he]
    · field_simp [he]
      nlinarith [he]

set_option maxHeartbeats 1000000 in
theorem qval_close (a b c d : ℚ)
    (ha0 : 0 ≤ a) (ha1 : a ≤ 1) (hb0 : 0 ≤ b) (hb1 : b ≤ 1)
    (hc0 : 0 ≤ c) (hc1 : c ≤ 1) (hd0 : 0 ≤ d) (hd1 : d ≤ 1)
    (hac : |a - c| ≤ 1/200) (hbd : |b - d| ≤ 1/200) :
    |qval a b - qval c d| ≤ 1/80 ∧ |(2*b - qval a b) - (2*d - qval c d)| ≤ 1/80 := by
  rw [abs_le] at hac hbd
  unfold qval
  split_ifs with h1 h2 h2
  · constructor <;> rw [abs_le] <;> constructor <;>
      nlinarith [mul_nonneg ha0 hb0, mul_nonneg hc0 hd0, mul_nonneg ha0 hd0,
        mul_nonneg hc0 hb0]
  · -- b < 1/2 <= d (branch crossing)
    have hx : (0:ℚ) ≤ 1/2 - b := by linarith
    have hy : (0:ℚ) ≤ d - 1/2 := by linarith [not_lt.1 h2]
    have e1 : b * (1 + a) - (d + c - d * c)
        = (1 + a) * (b - 1/2) + (a - c)/2 - (d - 1/2) * (1 - c) := by ring
    have e2 : 2 * b - b * (1 + a) - (2 * d - (d + c - d * c))
        = (1 - a) * (b - 1/2) + (c - a)/2 - (d - 1/2) * (1 + c) := by ring
    have A1 : 2 * (b - 1/2) ≤ (1 + a) * (b - 1/2) := by
      nlinarith [mul_nonneg (show (0:ℚ) ≤ 1 - a by linarith) hx]
    have A2 : (1 + a) * (b - 1/2) ≤ 0 := by
      nlinarith [mul_nonneg (show (0:ℚ) ≤ 1 + a by linarith) hx]
    have B1 : 0 ≤ (d - 1/2) * (1 - c) := mul_nonneg hy (by linarith)
    have B2 : (d - 1/2) * (1 - c) ≤ d - 1/2 := by
      nlinarith [mul_nonneg hy hc0]
    have C1 : b - 1/2 ≤ (1 - a) * (b - 1/2) := by
      nlinarith [mul_nonneg ha0 hx]
    have C2 : (1 - a) * (b - 1/2) ≤ 0 := by
      nlinarith [mul_nonneg (show (0:ℚ) ≤ 1 - a by linarith) hx]
    have D1 : 0 ≤ (d - 1/2) * (1 + c) := mul_nonneg hy (by linarith)
    have D2 : (d - 1/2) * (1 + c) ≤ 2 * (d - 1/2) := by
      nlinarith [mul_nonneg hy (show (0:ℚ) ≤ 1 - c by linarith)]
    constructor <;> rw [abs_le] <;> constructor <;> linarith
  · -- d < 1/2 <= b (branch crossing)
    have hx : (0:ℚ) ≤ b - 1/2 := by linarith [not_lt.1 h1]
    have hy : (0:ℚ) ≤ 1/2 - d := by linarith
    have e1 : b + a - b * a - d * (1 + c)
        = (1 - a) * (b - 1/2) + (a - c)/2 + (1/2 - d) * (1 + c) := by ring
    have e2 : 2 * b - (b + a - b * a) - (2 * d - d * (1 + c))
        = (1 + a) * (b - 1/2) + (c - a)/2 + (1/2 - d) * (1 - c) := by ring
    have A1 : (1 - a) * (b - 1/2) ≤ b - 1/2 := by
      nlinarith [mul_nonneg ha0 hx]
    have A2 : 0 ≤ (1 - a) * (b - 1/2) :=
      mul_nonneg (by linarith) hx
    have B1 : (1/2 - d) * (1 + c) ≤ 2 * (1/2 - d) := by
      nlinarith [mul_nonneg hy (show (0:ℚ) ≤ 1 - c by linarith)]
    have B2 : 0 ≤ (1/2 - d) * (1 + c) := mul_nonneg hy (by linarith)
    have C1 : (1 + a) * (b - 1/2) ≤ 2 * (b - 1/2) := by
      nlinarith [mul_nonneg (show (0:ℚ) ≤ 1 - a by linarith) hx]
    have C2 : 0 ≤ (1 + a) * (b - 1/2) := mul_nonneg (by linarith) hx
    have D1 : (1/2 - d) * (1 - c) ≤ 1/2 - d := by
      nlinarith [mul_nonneg hy hc0]
    have D2 : 0 ≤ (1/2 - d) * (1 - c) :=
      mul_nonneg hy (by linarith)
    constructor <;> rw [abs_le] <;> constructor <;> linarith
  · constructor <;> rw [abs_le] <;> constructor <;>
      nlinarith [mul_nonneg (sub_nonneg.2 ha1) (sub_nonneg.2 hd0),
        mul_nonneg (sub_nonneg.2 hc1) (sub_nonneg.2 hb0),
        mul_nonneg (sub_nonneg.2 ha1) (sub_nonneg.2 hb0),
        mul_nonneg (sub_nonneg.2 hc1) (sub_nonneg.2 hd0)]

/-! Branch evaluations of `hue2rgb` on the closed sub-intervals the round
trip visits (each interval includes its endpoints; at a shared endpoint the
adjacent formulas agree, so closed intervals are sound). -/

theorem hue2rgb_ramp_up (p q t : ℚ) (h0 : 0 ≤ t) (h1 : t ≤ 1/6) :
    hue2rgb p q t = p + (q - p) * 6 * t := by
  unfold hue2rgb
  dsimp only
  rw [if_neg (by linarith : ¬t < 0), if_neg (by linarith : ¬t > 1)]
  by_cases h : t < 1/6
  · rw [if_pos h]
  · have ht : t = 1/6 := by linarith
    rw [if_neg h, if_pos (by rw [ht]; norm_num)]
    rw [ht]
    ring

theorem hue2rgb_plateau_q (p q t : ℚ) (h0 : 1/6 ≤ t) (h1 : t ≤ 1/2) :
    hue2rgb p q t = q := by
  unfold hue2rgb
  dsimp only
  rw [if_neg (by linarith : ¬t < 0), if_neg (by linarith : ¬t > 1),
    if_neg (by linarith : ¬t < 1/6)]
  by_cases h : t < 1/2
  · rw [if_pos h]
  · have ht : t = 1/2 := by linarith
    rw [if_neg h, if_pos (by rw [ht]; norm_num)]
    rw [ht]
    ring

theorem hue2rgb_ramp_down (p q t : ℚ) (h0 : 1/2 ≤ t) (h1 : t ≤ 2/3) :
    hue2rgb p q t = p + (q - p) * (2/3 - t) * 6 := by
  unfold hue2rgb
  dsimp only
  rw [if_neg (by linarith : ¬t < 0), if_neg (by linarith : ¬t > 1),
    if_neg (by linarith : ¬t < 1/6)]
  by_cases h : t < 1/2
  · exact absurd h (by linarith)
  · rw [if_neg h]
    by_cases h' : t < 2/3
    · rw [if_pos h']
    · have ht : t = 2/3 := by linarith
      rw [if_neg h', ht]
      ring

theorem hue2rgb_plateau_p (p q t : ℚ) (h0 : 2/3 ≤ t) (h1 : t ≤ 1) :
    hue2rgb p q t = p := by
  unfold hue2rgb
  dsimp only
  rw [if_neg (by linarith : ¬t < 0), if_neg (by linarith : ¬t > 1),
    if_neg (by linarith : ¬t < 1/6), if_neg (by linarith : ¬t < 1/2),
    if_neg (by linarith : ¬t < 2/3)]

theorem hue2rgb_plateau_p_neg (p q t : ℚ) (h0 : -(1/3) ≤ t) (h1 : t ≤ 0) :
    hue2rgb p q t = p := by
  unfold hue2rgb
  dsimp only
  by_cases h : t < 0
  · rw [if_pos h, if_neg (by linarith : ¬t + 1 > 1),
      if_neg (by linarith : ¬t + 1 < 1/6), if_neg (by linarith : ¬t + 1 < 1/2),
      if_neg (by linarith : ¬t + 1 < 2/3)]
  · have ht : t = 0 := by linarith
    rw [if_neg h, if_neg (by linarith : ¬t > 1), if_pos (by rw [ht]; norm_num)]
    rw [ht]
    ring

theorem hue2rgb_q_high (p q t : ℚ) (h0 : 7/6 ≤ t) (h1 : t ≤ 4/3) :
    hue2rgb p q t = q := by
  unfold hue2rgb
  dsimp only
  rw [if_neg (by linarith : ¬t < 0), if_pos (by linarith : t > 1),
    if_neg (by linarith : ¬t - 1 < 1/6), if_pos (by linarith : t - 1 < 1/2)]

theorem hue2rgb_ramp_up_high (p q t : ℚ) (h0 : 1 ≤ t) (h1 : t ≤ 7/6) :
    hue2rgb p q t = p + (q - p) * 6 * (t - 1) := by
  unfold hue2rgb
  dsimp only
  rw [if_neg (by linarith : ¬t < 0)]
  by_cases h : t > 1
  · rw [if_pos h]
    by_cases h' : t - 1 < 1/6
    · rw [if_pos h']
    · have ht : t = 7/6 := by linarith
      rw [if_neg h', if_pos (by rw [ht]; norm_num)]
      rw [ht]
      ring
  · have ht : t = 1 := by linarith
    rw [if_neg h, if_neg (by rw [ht]; norm_num : ¬t < 1/6),
      if_neg (by rw [ht]; norm_num : ¬t < 1/2), if_neg (by rw [ht]; norm_num : ¬t < 2/3)]
    rw [ht]
    ring


set_option maxHeartbeats 1000000 in
theorem channels_close
    (mx mn mid ss ll : ℤ) (w w0 : ℚ)
    (h0mn : 0 ≤ mn) (hmnmx : mn < mx) (hmx : mx ≤ 255)
    (hss : |(ss : ℚ) - satExact ((mx:ℚ)/255) ((mn:ℚ)/255) * 100| ≤ 1/2)
    (hss0 : 0 ≤ ss) (hss100 : ss ≤ 100)
    (hll : |(ll : ℚ) - ((mx:ℚ)/255 + (mn:ℚ)/255) / 2 * 100| ≤ 1/2)
    (hll0 : 0 ≤ ll) (hll100 : ll ≤ 100)
    (hw0 : 0 ≤ w) (hw1 : w ≤ 1)
    (hww0 : |w - w0| ≤ 1/120)
    (hmid : (mid : ℚ) = mn + ((mx : ℚ) - mn) * w0) :
    |mathRound (qval ((ss:ℚ)/100) ((ll:ℚ)/100) * 255) - mx| ≤ 5 ∧
    |mathRound ((2 * ((ll:ℚ)/100) - qval ((ss:ℚ)/100) ((ll:ℚ)/100)) * 255) - mn| ≤ 5 ∧
    |mathRound ((2 * ((ll:ℚ)/100) - qval ((ss:ℚ)/100) ((ll:ℚ)/100)
        + (qval ((ss:ℚ)/100) ((ll:ℚ)/100)
           - (2 * ((ll:ℚ)/100) - qval ((ss:ℚ)/100) ((ll:ℚ)/100))) * w) * 255) - mid| ≤ 5 := by
  have hu1 : (mx:ℚ)/255 ≤ 1 := by
    rw [div_le_one (by norm_num)]
    exact_mod_cast hmx
  have hv0 : (0:ℚ) ≤ (mn:ℚ)/255 :=
    div_nonneg (by exact_mod_cast h0mn) (by norm_num)
  have hvu : (mn:ℚ)/255 < (mx:ℚ)/255 := by
    have : (mn:ℚ) < (mx:ℚ) := by exact_mod_cast hmnmx
    linarith
  obtain ⟨hs0, hs1, hsge⟩ := satExact_mem _ _ hv0 hvu hu1
  obtain ⟨hqe, hpe⟩ := qval_exact _ _ hv0 hvu hu1
  have ha0 : (0:ℚ) ≤ (ss:ℚ)/100 := div_nonneg (by exact_mod_cast hss0) (by norm_num)
  have ha1 : (ss:ℚ)/100 ≤ 1 := by
    rw [div_le_one (by norm_num)]
    exact_mod_cast hss100
  have hb0 : (0:ℚ) ≤ (ll:ℚ)/100 := div_nonneg (by exact_mod_cast hll0) (by norm_num)
  have hb1 : (ll:ℚ)/100 ≤ 1 := by
    rw [div_le_one (by norm_num)]
    exact_mod_cast hll100
  have hl0 : (0:ℚ) ≤ ((mx:ℚ)/255 + (mn:ℚ)/255) / 2 := by linarith
  have hl1 : ((mx:ℚ)/255 + (mn:ℚ)/255) / 2 ≤ 1 := by linarith
  have hac : |(ss:ℚ)/100 - satExact ((mx:ℚ)/255) ((mn:ℚ)/255)| ≤ 1/200 := by
    rw [abs_le] at hss ⊢
    constructor <;> linarith [hss.1, hss.2]
  have hbd : |(ll:ℚ)/100 - ((mx:ℚ)/255 + (mn:ℚ)/255) / 2| ≤ 1/200 := by
    rw [abs_le] at hll ⊢
    constructor <;> linarith [hll.1, hll.2]
  obtain ⟨hqc, hpc⟩ := qval_close ((ss:ℚ)/100) ((ll:ℚ)/100)
    (satExact ((mx:ℚ)/255) ((mn:ℚ)/255)) (((mx:ℚ)/255 + (mn:ℚ)/255) / 2)
    ha0 ha1 hb0 hb1 hs0 hs1 hl0 hl1 hac hbd
  rw [hqe] at hqc
  rw [hpe] at hpc
  rw [abs_le] at hqc hpc hww0
  have hDnn : (0:ℚ) ≤ (mx:ℚ) - mn := by
    have : (mn:ℚ) < (mx:ℚ) := by exact_mod_cast hmnmx
    linarith
  have hD255 : (mx:ℚ) - mn ≤ 255 := by
    have h1 : (mx:ℚ) ≤ 255 := by exact_mod_cast hmx
    have h2 : (0:ℚ) ≤ (mn:ℚ) := by exact_mod_cast h0mn
    linarith
  refine ⟨?_, ?_, ?_⟩
  · apply mathRound_close
    have hmxe : ((mx:ℚ)/255) * 255 = (mx:ℚ) := by ring
    rw [abs_le]
    constructor <;> nlinarith [hqc.1, hqc.2, hmxe]
  · apply mathRound_close
    have hmne : ((mn:ℚ)/255) * 255 = (mn:ℚ) := by ring
    rw [abs_le]
    constructor <;> nlinarith [hpc.1, hpc.2, hmne]
  · apply mathRound_close
    have key : (2 * ((ll:ℚ)/100) - qval ((ss:ℚ)/100) ((ll:ℚ)/100)
        + (qval ((ss:ℚ)/100) ((ll:ℚ)/100)
           - (2 * ((ll:ℚ)/100) - qval ((ss:ℚ)/100) ((ll:ℚ)/100))) * w) * 255 - (mid:ℚ)
        = ((2 * ((ll:ℚ)/100) - qval ((ss:ℚ)/100) ((ll:ℚ)/100)) - (mn:ℚ)/255) * 255 * (1 - w)
          + (qval ((ss:ℚ)/100) ((ll:ℚ)/100) - (mx:ℚ)/255) * 255 * w
          + ((mx:ℚ) - mn) * (w - w0) := by
      rw [hmid]
      ring
    have hint1 : (0:ℚ) ≤ (1/80 - ((2 * ((ll:ℚ)/100) - qval ((ss:ℚ)/100) ((ll:ℚ)/100)) - (mn:ℚ)/255)) * (1 - w) :=
      mul_nonneg (by linarith [hpc.2]) (by linarith)
    have hint2 : (0:ℚ) ≤ (((2 * ((ll:ℚ)/100) - qval ((ss:ℚ)/100) ((ll:ℚ)/100)) - (mn:ℚ)/255) + 1/80) * (1 - w) :=
      mul_nonneg (by linarith [hpc.1]) (by linarith)
    have hint3 : (0:ℚ) ≤ (1/80 - (qval ((ss:ℚ)/100) ((ll:ℚ)/100) - (mx:ℚ)/255)) * w :=
      mul_nonneg (by linarith [hqc.2]) hw0
    have hint4 : (0:ℚ) ≤ ((qval ((ss:ℚ)/100) ((ll:ℚ)/100) - (mx:ℚ)/255) + 1/80) * w :=
      mul_nonneg (by linarith [hqc.1]) hw0
    have hint5 : (0:ℚ) ≤ (1/120 - (w - w0)) * ((mx:ℚ) - mn) :=
      mul_nonneg (by linarith [hww0.2]) hDnn
    have hint6 : (0:ℚ) ≤ ((w - w0) + 1/120) * ((mx:ℚ) - mn) :=
      mul_nonneg (by linarith [hww0.1]) hDnn
    rw [abs_le, key]
    constructor <;> linarith [hint1, hint2, hint3, hint4, hint5, hint6, hD255, hDnn]

theorem mathRound_arg_congr (x y : ℚ) (n : ℤ) (hxy : x = y)
    (h : |mathRound y - n| ≤ 5) : |mathRound x - n| ≤ 5 := by
  rw [hxy]
  exact h

theorem intCast_div100_ne (n : ℤ) (hn : n ≠ 0) : ((n : ℤ) : ℚ) / 100 ≠ 0 :=
  div_ne_zero (Int.cast_ne_zero.2 hn) (by norm_num)

theorem sdeg_bound (c mx mn ll : ℤ) (hmnc : mn ≤ c) (hcmx : c ≤ mx)
    (hd : (mx:ℚ) - mn ≤ 51/20)
    (hll : |(ll : ℚ) - ((mx:ℚ)/255 + (mn:ℚ)/255) / 2 * 100| ≤ 1/2) :
    |mathRound ((ll:ℚ)/100 * 255) - c| ≤ 5 := by
  apply mathRound_close
  rw [abs_le] at hll ⊢
  have hc1 : (mn:ℚ) ≤ c := by exact_mod_cast hmnc
  have hc2 : (c:ℚ) ≤ mx := by exact_mod_cast hcmx
  constructor <;> linarith [hll.1, hll.2]

theorem rgbToHsl_caseA (r g b : ℤ) (hgr : g ≤ r) (hbg : b ≤ g) (hchrom : b < r) :
    rgbToHsl r g b =
      ⟨mathRound (60 * (((g:ℚ) - b) / ((r:ℚ) - b))),
       mathRound (satExact ((r:ℚ)/255) ((b:ℚ)/255) * 100),
       mathRound (((r:ℚ)/255 + (b:ℚ)/255) / 2 * 100)⟩ := by
  have hgrq : (g:ℚ) ≤ r := by exact_mod_cast hgr
  have hbgq : (b:ℚ) ≤ g := by exact_mod_cast hbg
  have hbrq : (b:ℚ) < r := by exact_mod_cast hchrom
  have hgr' : (g:ℚ)/255 ≤ (r:ℚ)/255 := by linarith
  have hbr' : (b:ℚ)/255 ≤ (r:ℚ)/255 := by linarith
  have hbg' : (b:ℚ)/255 ≤ (g:ℚ)/255 := by linarith
  have hbrs : (b:ℚ)/255 < (r:ℚ)/255 := by linarith
  have hmx : max (max ((r:ℚ)/255) ((g:ℚ)/255)) ((b:ℚ)/255) = (r:ℚ)/255 := by
    rw [max_eq_left hgr', max_eq_left hbr']
  have hmn : min (min ((r:ℚ)/255) ((g:ℚ)/255)) ((b:ℚ)/255) = (b:ℚ)/255 := by
    rw [min_eq_right hgr', min_eq_right hbg']
  unfold rgbToHsl
  dsimp only
  rw [hmx, hmn, if_neg (ne_of_gt hbrs), if_pos rfl, if_neg (not_lt.2 hbg')]
  have harg : (((g:ℚ)/255 - (b:ℚ)/255) / ((r:ℚ)/255 - (b:ℚ)/255) + 0) / 6 * 360
      = 60 * (((g:ℚ) - b) / ((r:ℚ) - b)) := by
    have hne : (r:ℚ) - b ≠ 0 := by linarith
    field_simp
    ring
  rw [show (if ((r:ℚ)/255 + (b:ℚ)/255) / 2 > 1/2
        then ((r:ℚ)/255 - (b:ℚ)/255) / (2 - (r:ℚ)/255 - (b:ℚ)/255)
        else ((r:ℚ)/255 - (b:ℚ)/255) / ((r:ℚ)/255 + (b:ℚ)/255))
      = satExact ((r:ℚ)/255) ((b:ℚ)/255) from rfl]
  rw [harg]

theorem roundtrip_caseA (r g b : ℤ) (h0b : 0 ≤ b) (hr255 : r ≤ 255)
    (hgr : g ≤ r) (hbg : b ≤ g) (hchrom : b < r) :
    |(hslToRgb ((rgbToHsl r g b).h : ℚ) ((rgbToHsl r g b).s : ℚ) ((rgbToHsl r g b).l : ℚ)).r - r| ≤ 5 ∧
    |(hslToRgb ((rgbToHsl r g b).h : ℚ) ((rgbToHsl r g b).s : ℚ) ((rgbToHsl r g b).l : ℚ)).g - g| ≤ 5 ∧
    |(hslToRgb ((rgbToHsl r g b).h : ℚ) ((rgbToHsl r g b).s : ℚ) ((rgbToHsl r g b).l : ℚ)).b - b| ≤ 5 := by
  rw [rgbToHsl_caseA r g b hgr hbg hchrom]
  have hbrq : (b:ℚ) < r := by exact_mod_cast hchrom
  have hgbq : (b:ℚ) ≤ g := by exact_mod_cast hbg
  have hgrq : (g:ℚ) ≤ r := by exact_mod_cast hgr
  have h0bq : (0:ℚ) ≤ b := by exact_mod_cast h0b
  have hr255q : (r:ℚ) ≤ 255 := by exact_mod_cast hr255
  have hrbpos : (0:ℚ) < (r:ℚ) - b := by linarith
  have hw00 : (0:ℚ) ≤ ((g:ℚ) - b) / ((r:ℚ) - b) :=
    div_nonneg (by linarith) (le_of_lt hrbpos)
  have hw01 : ((g:ℚ) - b) / ((r:ℚ) - b) ≤ 1 := by
    rw [div_le_one hrbpos]
    linarith
  have hu1 : (r:ℚ)/255 ≤ 1 := by linarith
  have hv0 : (0:ℚ) ≤ (b:ℚ)/255 := by linarith
  have hvu : (b:ℚ)/255 < (r:ℚ)/255 := by linarith
  obtain ⟨hs0, hs1, hsge⟩ := satExact_mem ((r:ℚ)/255) ((b:ℚ)/255) hv0 hvu hu1
  obtain ⟨hh0, hh60⟩ := mathRound_mem (60 * (((g:ℚ) - b) / ((r:ℚ) - b))) 0 60
    (by push_cast; linarith) (by push_cast; linarith)
  obtain ⟨hss0, hss100⟩ := mathRound_mem (satExact ((r:ℚ)/255) ((b:ℚ)/255) * 100) 0 100
    (by push_cast; linarith) (by push_cast; linarith)
  have hl00 : (0:ℚ) ≤ ((r:ℚ)/255 + (b:ℚ)/255) / 2 := by linarith
  have hl01 : ((r:ℚ)/255 + (b:ℚ)/255) / 2 ≤ 1 := by linarith
  obtain ⟨hll0, hll100⟩ := mathRound_mem (((r:ℚ)/255 + (b:ℚ)/255) / 2 * 100) 0 100
    (by push_cast; linarith) (by push_cast; linarith)
  have hssd := mathRound_dist (satExact ((r:ℚ)/255) ((b:ℚ)/255) * 100)
  have hlld := mathRound_dist (((r:ℚ)/255 + (b:ℚ)/255) / 2 * 100)
  have hhd := mathRound_dist (60 * (((g:ℚ) - b) / ((r:ℚ) - b)))
  by_cases hsz : mathRound (satExact ((r:ℚ)/255) ((b:ℚ)/255) * 100) = 0
  · have hdsmall : (r:ℚ) - b ≤ 51/20 := by
      rw [hsz] at hssd
      rw [abs_le] at hssd
      have h1 : satExact ((r:ℚ)/255) ((b:ℚ)/255) ≤ 1/200 := by
        have := hssd.1
        push_cast at this
        linarith
      have h2 : ((r:ℚ)/255 - (b:ℚ)/255) / 2 ≤ 1/200 := le_trans hsge h1
      linarith
    unfold hslToRgb
    dsimp only
    rw [if_pos (by rw [hsz]; norm_num :
      ((mathRound (satExact ((r:ℚ)/255) ((b:ℚ)/255) * 100) : ℤ) : ℚ) / 100 = 0)]
    exact ⟨sdeg_bound r r b _ (le_of_lt hchrom) le_rfl hdsmall hlld,
      sdeg_bound g r b _ hbg hgr hdsmall hlld,
      sdeg_bound b r b _ le_rfl (le_of_lt hchrom) hdsmall hlld⟩
  · unfold hslToRgb
    dsimp only
    rw [if_neg (intCast_div100_ne _ hsz)]
    have hh0q : (0:ℚ) ≤ ((mathRound (60 * (((g:ℚ) - b) / ((r:ℚ) - b))) : ℤ) : ℚ) := by
      exact_mod_cast hh0
    have hh60q : ((mathRound (60 * (((g:ℚ) - b) / ((r:ℚ) - b))) : ℤ) : ℚ) ≤ 60 := by
      exact_mod_cast hh60
    rw [hue2rgb_plateau_q _ _ _ (by linarith) (by linarith),
      hue2rgb_ramp_up _ _ _ (by linarith) (by linarith),
      hue2rgb_plateau_p_neg _ _ _ (by linarith) (by linarith)]
    have hqfold : (if ((mathRound (((r:ℚ)/255 + (b:ℚ)/255) / 2 * 100) : ℤ) : ℚ) / 100 < 1/2
        then ((mathRound (((r:ℚ)/255 + (b:ℚ)/255) / 2 * 100) : ℤ) : ℚ) / 100
          * (1 + ((mathRound (satExact ((r:ℚ)/255) ((b:ℚ)/255) * 100) : ℤ) : ℚ) / 100)
        else ((mathRound (((r:ℚ)/255 + (b:ℚ)/255) / 2 * 100) : ℤ) : ℚ) / 100
          + ((mathRound (satExact ((r:ℚ)/255) ((b:ℚ)/255) * 100) : ℤ) : ℚ) / 100
          - ((mathRound (((r:ℚ)/255 + (b:ℚ)/255) / 2 * 100) : ℤ) : ℚ) / 100
          * (((mathRound (satExact ((r:ℚ)/255) ((b:ℚ)/255) * 100) : ℤ) : ℚ) / 100))
        = qval (((mathRound (satExact ((r:ℚ)/255) ((b:ℚ)/255) * 100) : ℤ) : ℚ) / 100)
               (((mathRound (((r:ℚ)/255 + (b:ℚ)/255) / 2 * 100) : ℤ) : ℚ) / 100) := rfl
    rw [hqfold]
    obtain ⟨H1, H2, H3⟩ := channels_close r b g
      (mathRound (satExact ((r:ℚ)/255) ((b:ℚ)/255) * 100))
      (mathRound (((r:ℚ)/255 + (b:ℚ)/255) / 2 * 100))
      (((mathRound (60 * (((g:ℚ) - b) / ((r:ℚ) - b))) : ℤ) : ℚ) / 60)
      (((g:ℚ) - b) / ((r:ℚ) - b))
      h0b hchrom hr255
      hssd hss0 hss100 hlld hll0 hll100
      (by linarith) (by linarith)
      (by rw [abs_le] at hhd ⊢; constructor <;> linarith [hhd.1, hhd.2])
      (by field_simp)
    exact ⟨H1, mathRound_arg_congr _ _ _ (by ring) H3, H2⟩

theorem rgbToHsl_caseB (r g b : ℤ) (hgb : g < b) (hbr : b ≤ r) :
    rgbToHsl r g b =
      ⟨mathRound (360 - 60 * (((b:ℚ) - g) / ((r:ℚ) - g))),
       mathRound (satExact ((r:ℚ)/255) ((g:ℚ)/255) * 100),
       mathRound (((r:ℚ)/255 + (g:ℚ)/255) / 2 * 100)⟩ := by
  have hgbq : (g:ℚ) < b := by exact_mod_cast hgb
  have hbrq : (b:ℚ) ≤ r := by exact_mod_cast hbr
  have hgr' : (g:ℚ)/255 ≤ (r:ℚ)/255 := by linarith
  have hbr' : (b:ℚ)/255 ≤ (r:ℚ)/255 := by linarith
  have hgb' : (g:ℚ)/255 < (b:ℚ)/255 := by linarith
  have hgrs : (g:ℚ)/255 < (r:ℚ)/255 := by linarith
  have hmx : max (max ((r:ℚ)/255) ((g:ℚ)/255)) ((b:ℚ)/255) = (r:ℚ)/255 := by
    rw [max_eq_left hgr', max_eq_left hbr']
  have hmn : min (min ((r:ℚ)/255) ((g:ℚ)/255)) ((b:ℚ)/255) = (g:ℚ)/255 := by
    rw [min_eq_right hgr', min_eq_left (le_of_lt hgb')]
  unfold rgbToHsl
  dsimp only
  rw [hmx, hmn, if_neg (ne_of_gt hgrs), if_pos rfl, if_pos hgb']
  have harg : (((g:ℚ)/255 - (b:ℚ)/255) / ((r:ℚ)/255 - (g:ℚ)/255) + 6) / 6 * 360
      = 360 - 60 * (((b:ℚ) - g) / ((r:ℚ) - g)) := by
    have hne : (r:ℚ) - g ≠ 0 := by linarith
    field_simp
    ring
  rw [show (if ((r:ℚ)/255 + (g:ℚ)/255) / 2 > 1/2
        then ((r:ℚ)/255 - (g:ℚ)/255) / (2 - (r:ℚ)/255 - (g:ℚ)/255)
        else ((r:ℚ)/255 - (g:ℚ)/255) / ((r:ℚ)/255 + (g:ℚ)/255))
      = satExact ((r:ℚ)/255) ((g:ℚ)/255) from rfl]
  rw [harg]

theorem roundtrip_caseB (r g b : ℤ) (h0g : 0 ≤ g) (hr255 : r ≤ 255)
    (hgb : g < b) (hbr : b ≤ r) :
    |(hslToRgb ((rgbToHsl r g b).h : ℚ) ((rgbToHsl r g b).s : ℚ) ((rgbToHsl r g b).l : ℚ)).r - r| ≤ 5 ∧
    |(hslToRgb ((rgbToHsl r g b).h : ℚ) ((rgbToHsl r g b).s : ℚ) ((rgbToHsl r g b).l : ℚ)).g - g| ≤ 5 ∧
    |(hslToRgb ((rgbToHsl r g b).h : ℚ) ((rgbToHsl r g b).s : ℚ) ((rgbToHsl r g b).l : ℚ)).b - b| ≤ 5 := by
  rw [rgbToHsl_caseB r g b hgb hbr]
  have hchrom : g < r := lt_of_lt_of_le hgb hbr
  have hgbq : (g:ℚ) < b := by exact_mod_cast hgb
  have hbrq : (b:ℚ) ≤ r := by exact_mod_cast hbr
  have h0gq : (0:ℚ) ≤ g := by exact_mod_cast h0g
  have hr255q : (r:ℚ) ≤ 255 := by exact_mod_cast hr255
  have hrgpos : (0:ℚ) < (r:ℚ) - g := by linarith
  have hw00 : (0:ℚ) ≤ ((b:ℚ) - g) / ((r:ℚ) - g) :=
    div_nonneg (by linarith) (le_of_lt hrgpos)
  have hw01 : ((b:ℚ) - g) / ((r:ℚ) - g) ≤ 1 := by
    rw [div_le_one hrgpos]
    linarith
  have hu1 : (r:ℚ)/255 ≤ 1 := by linarith
  have hv0 : (0:ℚ) ≤ (g:ℚ)/255 := by linarith
  have hvu : (g:ℚ)/255 < (r:ℚ)/255 := by linarith
  obtain ⟨hs0, hs1, hsge⟩ := satExact_mem ((r:ℚ)/255) ((g:ℚ)/255) hv0 hvu hu1
  obtain ⟨hh0, hh60⟩ := mathRound_mem (360 - 60 * (((b:ℚ) - g) / ((r:ℚ) - g))) 300 360
    (by push_cast; linarith) (by push_cast; linarith)
  obtain ⟨hss0, hss100⟩ := mathRound_mem (satExact ((r:ℚ)/255) ((g:ℚ)/255) * 100) 0 100
    (by push_cast; linarith) (by push_cast; linarith)
  have hl00 : (0:ℚ) ≤ ((r:ℚ)/255 + (g:ℚ)/255) / 2 := by linarith
  have hl01 : ((r:ℚ)/255 + (g:ℚ)/255) / 2 ≤ 1 := by linarith
  obtain ⟨hll0, hll100⟩ := mathRound_mem (((r:ℚ)/255 + (g:ℚ)/255) / 2 * 100) 0 100
    (by push_cast; linarith) (by push_cast; linarith)
  have hssd := mathRound_dist (satExact ((r:ℚ)/255) ((g:ℚ)/255) * 100)
  have hlld := mathRound_dist (((r:ℚ)/255 + (g:ℚ)/255) / 2 * 100)
  have hhd := mathRound_dist (360 - 60 * (((b:ℚ) - g) / ((r:ℚ) - g)))
  by_cases hsz : mathRound (satExact ((r:ℚ)/255) ((g:ℚ)/255) * 100) = 0
  · have hdsmall : (r:ℚ) - g ≤ 51/20 := by
      rw [hsz] at hssd
      rw [abs_le] at hssd
      have h1 : satExact ((r:ℚ)/255) ((g:ℚ)/255) ≤ 1/200 := by
        have := hssd.1
        push_cast at this
        linarith
      have h2 : ((r:ℚ)/255 - (g:ℚ)/255) / 2 ≤ 1/200 := le_trans hsge h1
      linarith
    unfold hslToRgb
    dsimp only
    rw [if_pos (by rw [hsz]; norm_num :
      ((mathRound (satExact ((r:ℚ)/255) ((g:ℚ)/255) * 100) : ℤ) : ℚ) / 100 = 0)]
    exact ⟨sdeg_bound r r g _ (le_of_lt hchrom) le_rfl hdsmall hlld,
      sdeg_bound g r g _ le_rfl (le_of_lt hchrom) hdsmall hlld,
      sdeg_bound b r g _ (le_of_lt hgb) hbr hdsmall hlld⟩
  · unfold hslToRgb
    dsimp only
    rw [if_neg (intCast_div100_ne _ hsz)]
    have hh0q : (300:ℚ) ≤ ((mathRound (360 - 60 * (((b:ℚ) - g) / ((r:ℚ) - g))) : ℤ) : ℚ) := by
      exact_mod_cast hh0
    have hh60q : ((mathRound (360 - 60 * (((b:ℚ) - g) / ((r:ℚ) - g))) : ℤ) : ℚ) ≤ 360 := by
      exact_mod_cast hh60
    rw [hue2rgb_q_high _ _ _ (by linarith) (by linarith),
      hue2rgb_plateau_p _ _ _ (by linarith) (by linarith),
      hue2rgb_ramp_down _ _ _ (by linarith) (by linarith)]
    have hqfold : (if ((mathRound (((r:ℚ)/255 + (g:ℚ)/255) / 2 * 100) : ℤ) : ℚ) / 100 < 1/2
        then ((mathRound (((r:ℚ)/255 + (g:ℚ)/255) / 2 * 100) : ℤ) : ℚ) / 100
          * (1 + ((mathRound (satExact ((r:ℚ)/255) ((g:ℚ)/255) * 100) : ℤ) : ℚ) / 100)
        else ((mathRound (((r:ℚ)/255 + (g:ℚ)/255) / 2 * 100) : ℤ) : ℚ) / 100
          + ((mathRound (satExact ((r:ℚ)/255) ((g:ℚ)/255) * 100) : ℤ) : ℚ) / 100
          - ((mathRound (((r:ℚ)/255 + (g:ℚ)/255) / 2 * 100) : ℤ) : ℚ) / 100
          * (((mathRound (satExact ((r:ℚ)/255) ((g:ℚ)/255) * 100) : ℤ) : ℚ) / 100))
        = qval (((mathRound (satExact ((r:ℚ)/255) ((g:ℚ)/255) * 100) : ℤ) : ℚ) / 100)
               (((mathRound (((r:ℚ)/255 + (g:ℚ)/255) / 2 * 100) : ℤ) : ℚ) / 100) := rfl
    rw [hqfold]
    obtain ⟨H1, H2, H3⟩ := channels_close r g b
      (mathRound (satExact ((r:ℚ)/255) ((g:ℚ)/255) * 100))
      (mathRound (((r:ℚ)/255 + (g:ℚ)/255) / 2 * 100))
      (6 - ((mathRound (360 - 60 * (((b:ℚ) - g) / ((r:ℚ) - g))) : ℤ) : ℚ) / 60)
      (((b:ℚ) - g) / ((r:ℚ) - g))
      h0g hchrom hr255
      hssd hss0 hss100 hlld hll0 hll100
      (by linarith) (by linarith)
      (by rw [abs_le] at hhd ⊢; constructor <;> linarith [hhd.1, hhd.2])
      (by field_simp)
    exact ⟨H1, H2, mathRound_arg_congr _ _ _ (by ring) H3⟩

theorem rgbToHsl_caseC (r g b : ℤ) (hrg : r < g) (hbr : b ≤ r) :
    rgbToHsl r g b =
      ⟨mathRound (120 - 60 * (((r:ℚ) - b) / ((g:ℚ) - b))),
       mathRound (satExact ((g:ℚ)/255) ((b:ℚ)/255) * 100),
       mathRound (((g:ℚ)/255 + (b:ℚ)/255) / 2 * 100)⟩ := by
  have hrgq : (r:ℚ) < g := by exact_mod_cast hrg
  have hbrq : (b:ℚ) ≤ r := by exact_mod_cast hbr
  have hrg' : (r:ℚ)/255 < (g:ℚ)/255 := by linarith
  have hbg' : (b:ℚ)/255 ≤ (g:ℚ)/255 := by linarith
  have hbr' : (b:ℚ)/255 ≤ (r:ℚ)/255 := by linarith
  have hbgs : (b:ℚ)/255 < (g:ℚ)/255 := by linarith
  have hmx : max (max ((r:ℚ)/255) ((g:ℚ)/255)) ((b:ℚ)/255) = (g:ℚ)/255 := by
    rw [max_eq_right (le_of_lt hrg'), max_eq_left hbg']
  have hmn : min (min ((r:ℚ)/255) ((g:ℚ)/255)) ((b:ℚ)/255) = (b:ℚ)/255 := by
    rw [min_eq_left (le_of_lt hrg'), min_eq_right hbr']
  unfold rgbToHsl
  dsimp only
  rw [hmx, hmn, if_neg (ne_of_gt hbgs), if_neg (ne_of_gt hrg'), if_pos rfl]
  have harg : (((b:ℚ)/255 - (r:ℚ)/255) / ((g:ℚ)/255 - (b:ℚ)/255) + 2) / 6 * 360
      = 120 - 60 * (((r:ℚ) - b) / ((g:ℚ) - b)) := by
    have hne : (g:ℚ) - b ≠ 0 := by linarith
    field_simp
    ring
  rw [show (if ((g:ℚ)/255 + (b:ℚ)/255) / 2 > 1/2
        then ((g:ℚ)/255 - (b:ℚ)/255) / (2 - (g:ℚ)/255 - (b:ℚ)/255)
        else ((g:ℚ)/255 - (b:ℚ)/255) / ((g:ℚ)/255 + (b:ℚ)/255))
      = satExact ((g:ℚ)/255) ((b:ℚ)/255) from rfl]
  rw [harg]

theorem roundtrip_caseC (r g b : ℤ) (h0b : 0 ≤ b) (hg255 : g ≤ 255)
    (hrg : r < g) (hbr : b ≤ r) :
    |(hslToRgb ((rgbToHsl r g b).h : ℚ) ((rgbToHsl r g b).s : ℚ) ((rgbToHsl r g b).l : ℚ)).r - r| ≤ 5 ∧
    |(hslToRgb ((rgbToHsl r g b).h : ℚ) ((rgbToHsl r g b).s : ℚ) ((rgbToHsl r g b).l : ℚ)).g - g| ≤ 5 ∧
    |(hslToRgb ((rgbToHsl r g b).h : ℚ) ((rgbToHsl r g b).s : ℚ) ((rgbToHsl r g b).l : ℚ)).b - b| ≤ 5 := by
  rw [rgbToHsl_caseC r g b hrg hbr]
  have hchrom : b < g := lt_of_le_of_lt hbr hrg
  have hrgq : (r:ℚ) < g := by exact_mod_cast hrg
  have hbrq : (b:ℚ) ≤ r := by exact_mod_cast hbr
  have h0bq : (0:ℚ) ≤ b := by exact_mod_cast h0b
  have hg255q : (g:ℚ) ≤ 255 := by exact_mod_cast hg255
  have hgbpos : (0:ℚ) < (g:ℚ) - b := by linarith
  have hw00 : (0:ℚ) ≤ ((r:ℚ) - b) / ((g:ℚ) - b) :=
    div_nonneg (by linarith) (le_of_lt hgbpos)
  have hw01 : ((r:ℚ) - b) / ((g:ℚ) - b) ≤ 1 := by
    rw [div_le_one hgbpos]
    linarith
  have hu1 : (g:ℚ)/255 ≤ 1 := by linarith
  have hv0 : (0:ℚ) ≤ (b:ℚ)/255 := by linarith
  have hvu : (b:ℚ)/255 < (g:ℚ)/255 := by linarith
  obtain ⟨hs0, hs1, hsge⟩ := satExact_mem ((g:ℚ)/255) ((b:ℚ)/255) hv0 hvu hu1
  obtain ⟨hh0, hh60⟩ := mathRound_mem (120 - 60 * (((r:ℚ) - b) / ((g:ℚ) - b))) 60 120
    (by push_cast; linarith) (by push_cast; linarith)
  obtain ⟨hss0, hss100⟩ := mathRound_mem (satExact ((g:ℚ)/255) ((b:ℚ)/255) * 100) 0 100
    (by push_cast; linarith) (by push_cast; linarith)
  have hl00 : (0:ℚ) ≤ ((g:ℚ)/255 + (b:ℚ)/255) / 2 := by linarith
  have hl01 : ((g:ℚ)/255 + (b:ℚ)/255) / 2 ≤ 1 := by linarith
  obtain ⟨hll0, hll100⟩ := mathRound_mem (((g:ℚ)/255 + (b:ℚ)/255) / 2 * 100) 0 100
    (by push_cast; linarith) (by push_cast; linarith)
  have hssd := mathRound_dist (satExact ((g:ℚ)/255) ((b:ℚ)/255) * 100)
  have hlld := mathRound_dist (((g:ℚ)/255 + (b:ℚ)/255) / 2 * 100)
  have hhd := mathRound_dist (120 - 60 * (((r:ℚ) - b) / ((g:ℚ) - b)))
  by_cases hsz : mathRound (satExact ((g:ℚ)/255) ((b:ℚ)/255) * 100) = 0
  · have hdsmall : (g:ℚ) - b ≤ 51/20 := by
      rw [hsz] at hssd
      rw [abs_le] at hssd
      have h1 : satExact ((g:ℚ)/255) ((b:ℚ)/255) ≤ 1/200 := by
        have := hssd.1
        push_cast at this
        linarith
      have h2 : ((g:ℚ)/255 - (b:ℚ)/255) / 2 ≤ 1/200 := le_trans hsge h1
      linarith
    unfold hslToRgb
    dsimp only
    rw [if_pos (by rw [hsz]; norm_num :
      ((mathRound (satExact ((g:ℚ)/255) ((b:ℚ)/255) * 100) : ℤ) : ℚ) / 100 = 0)]
    exact ⟨sdeg_bound r g b _ hbr (le_of_lt hrg) hdsmall hlld,
      sdeg_bound g g b _ (le_of_lt hchrom) le_rfl hdsmall hlld,
      sdeg_bound b g b _ le_rfl (le_of_lt hchrom) hdsmall hlld⟩
  · unfold hslToRgb
    dsimp only
    rw [if_neg (intCast_div100_ne _ hsz)]
    have hh0q : (60:ℚ) ≤ ((mathRound (120 - 60 * (((r:ℚ) - b) / ((g:ℚ) - b))) : ℤ) : ℚ) := by
      exact_mod_cast hh0
    have hh60q : ((mathRound (120 - 60 * (((r:ℚ) - b) / ((g:ℚ) - b))) : ℤ) : ℚ) ≤ 120 := by
      exact_mod_cast hh60
    rw [hue2rgb_ramp_down _ _ _ (by linarith) (by linarith),
      hue2rgb_plateau_q _ _ _ (by linarith) (by linarith),
      hue2rgb_plateau_p_neg _ _ _ (by linarith) (by linarith)]
    have hqfold : (if ((mathRound (((g:ℚ)/255 + (b:ℚ)/255) / 2 * 100) : ℤ) : ℚ) / 100 < 1/2
        then ((mathRound (((g:ℚ)/255 + (b:ℚ)/255) / 2 * 100) : ℤ) : ℚ) / 100
          * (1 + ((mathRound (satExact ((g:ℚ)/255) ((b:ℚ)/255) * 100) : ℤ) : ℚ) / 100)
        else ((mathRound (((g:ℚ)/255 + (b:ℚ)/255) / 2 * 100) : ℤ) : ℚ) / 100
          + ((mathRound (satExact ((g:ℚ)/255) ((b:ℚ)/255) * 100) : ℤ) : ℚ) / 100
          - ((mathRound (((g:ℚ)/255 + (b:ℚ)/255) / 2 * 100) : ℤ) : ℚ) / 100
          * (((mathRound (satExact ((g:ℚ)/255) ((b:ℚ)/255) * 100) : ℤ) : ℚ) / 100))
        = qval (((mathRound (satExact ((g:ℚ)/255) ((b:ℚ)/255) * 100) : ℤ) : ℚ) / 100)
               (((mathRound (((g:ℚ)/255 + (b:ℚ)/255) / 2 * 100) : ℤ) : ℚ) / 100) := rfl
    rw [hqfold]
    obtain ⟨H1, H2, H3⟩ := channels_close g b r
      (mathRound (satExact ((g:ℚ)/255) ((b:ℚ)/255) * 100))
      (mathRound (((g:ℚ)/255 + (b:ℚ)/255) / 2 * 100))
      (2 - ((mathRound (120 - 60 * (((r:ℚ) - b) / ((g:ℚ) - b))) : ℤ) : ℚ) / 60)
      (((r:ℚ) - b) / ((g:ℚ) - b))
      h0b hchrom hg255
      hssd hss0 hss100 hlld hll0 hll100
      (by linarith) (by linarith)
      (by rw [abs_le] at hhd ⊢; constructor <;> linarith [hhd.1, hhd.2])
      (by field_simp)
    exact ⟨mathRound_arg_congr _ _ _ (by ring) H3, H1, H2⟩

theorem rgbToHsl_caseD (r g b : ℤ) (hbg : b ≤ g) (hrb : r < b) :
    rgbToHsl r g b =
      ⟨mathRound (120 + 60 * (((b:ℚ) - r) / ((g:ℚ) - r))),
       mathRound (satExact ((g:ℚ)/255) ((r:ℚ)/255) * 100),
       mathRound (((g:ℚ)/255 + (r:ℚ)/255) / 2 * 100)⟩ := by
  have hbgq : (b:ℚ) ≤ g := by exact_mod_cast hbg
  have hrbq : (r:ℚ) < b := by exact_mod_cast hrb
  have hrg' : (r:ℚ)/255 < (g:ℚ)/255 := by linarith
  have hbg' : (b:ℚ)/255 ≤ (g:ℚ)/255 := by linarith
  have hrb' : (r:ℚ)/255 < (b:ℚ)/255 := by linarith
  have hmx : max (max ((r:ℚ)/255) ((g:ℚ)/255)) ((b:ℚ)/255) = (g:ℚ)/255 := by
    rw [max_eq_right (le_of_lt hrg'), max_eq_left hbg']
  have hmn : min (min ((r:ℚ)/255) ((g:ℚ)/255)) ((b:ℚ)/255) = (r:ℚ)/255 := by
    rw [min_eq_left (le_of_lt hrg'), min_eq_left (le_of_lt hrb')]
  unfold rgbToHsl
  dsimp only
  rw [hmx, hmn, if_neg (ne_of_gt hrg'), if_neg (ne_of_gt hrg'), if_pos rfl]
  have harg : (((b:ℚ)/255 - (r:ℚ)/255) / ((g:ℚ)/255 - (r:ℚ)/255) + 2) / 6 * 360
      = 120 + 60 * (((b:ℚ) - r) / ((g:ℚ) - r)) := by
    have hne : (g:ℚ) - r ≠ 0 := by linarith
    field_simp
    ring
  rw [show (if ((g:ℚ)/255 + (r:ℚ)/255) / 2 > 1/2
        then ((g:ℚ)/255 - (r:ℚ)/255) / (2 - (g:ℚ)/255 - (r:ℚ)/255)
        else ((g:ℚ)/255 - (r:ℚ)/255) / ((g:ℚ)/255 + (r:ℚ)/255))
      = satExact ((g:ℚ)/255) ((r:ℚ)/255) from rfl]
  rw [harg]

theorem roundtrip_caseD (r g b : ℤ) (h0r : 0 ≤ r) (hg255 : g ≤ 255)
    (hbg : b ≤ g) (hrb : r < b) :
    |(hslToRgb ((rgbToHsl r g b).h : ℚ) ((rgbToHsl r g b).s : ℚ) ((rgbToHsl r g b).l : ℚ)).r - r| ≤ 5 ∧
    |(hslToRgb ((rgbToHsl r g b).h : ℚ) ((rgbToHsl r g b).s : ℚ) ((rgbToHsl r g b).l : ℚ)).g - g| ≤ 5 ∧
    |(hslToRgb ((rgbToHsl r g b).h : ℚ) ((rgbToHsl r g b).s : ℚ) ((rgbToHsl r g b).l : ℚ)).b - b| ≤ 5 := by
  rw [rgbToHsl_caseD r g b hbg hrb]
  have hchrom : r < g := lt_of_lt_of_le hrb hbg
  have hbgq : (b:ℚ) ≤ g := by exact_mod_cast hbg
  have hrbq : (r:ℚ) < b := by exact_mod_cast hrb
  have h0rq : (0:ℚ) ≤ r := by exact_mod_cast h0r
  have hg255q : (g:ℚ) ≤ 255 := by exact_mod_cast hg255
  have hgrpos : (0:ℚ) < (g:ℚ) - r := by linarith
  have hw00 : (0:ℚ) ≤ ((b:ℚ) - r) / ((g:ℚ) - r) :=
    div_nonneg (by linarith) (le_of_lt hgrpos)
  have hw01 : ((b:ℚ) - r) / ((g:ℚ) - r) ≤ 1 := by
    rw [div_le_one hgrpos]
    linarith
  have hu1 : (g:ℚ)/255 ≤ 1 := by linarith
  have hv0 : (0:ℚ) ≤ (r:ℚ)/255 := by linarith
  have hvu : (r:ℚ)/255 < (g:ℚ)/255 := by linarith
  obtain ⟨hs0, hs1, hsge⟩ := satExact_mem ((g:ℚ)/255) ((r:ℚ)/255) hv0 hvu hu1
  obtain ⟨hh0, hh60⟩ := mathRound_mem (120 + 60 * (((b:ℚ) - r) / ((g:ℚ) - r))) 120 180
    (by push_cast; linarith) (by push_cast; linarith)
  obtain ⟨hss0, hss100⟩ := mathRound_mem (satExact ((g:ℚ)/255) ((r:ℚ)/255) * 100) 0 100
    (by push_cast; linarith) (by push_cast; linarith)
  have hl00 : (0:ℚ) ≤ ((g:ℚ)/255 + (r:ℚ)/255) / 2 := by linarith
  have hl01 : ((g:ℚ)/255 + (r:ℚ)/255) / 2 ≤ 1 := by linarith
  obtain ⟨hll0, hll100⟩ := mathRound_mem (((g:ℚ)/255 + (r:ℚ)/255) / 2 * 100) 0 100
    (by push_cast; linarith) (by push_cast; linarith)
  have hssd := mathRound_dist (satExact ((g:ℚ)/255) ((r:ℚ)/255) * 100)
  have hlld := mathRound_dist (((g:ℚ)/255 + (r:ℚ)/255) / 2 * 100)
  have hhd := mathRound_dist (120 + 60 * (((b:ℚ) - r) / ((g:ℚ) - r)))
  by_cases hsz : mathRound (satExact ((g:ℚ)/255) ((r:ℚ)/255) * 100) = 0
  · have hdsmall : (g:ℚ) - r ≤ 51/20 := by
      rw [hsz] at hssd
      rw [abs_le] at hssd
      have h1 : satExact ((g:ℚ)/255) ((r:ℚ)/255) ≤ 1/200 := by
        have := hssd.1
        push_cast at this
        linarith
      have h2 : ((g:ℚ)/255 - (r:ℚ)/255) / 2 ≤ 1/200 := le_trans hsge h1
      linarith
    unfold hslToRgb
    dsimp only
    rw [if_pos (by rw [hsz]; norm_num :
      ((mathRound (satExact ((g:ℚ)/255) ((r:ℚ)/255) * 100) : ℤ) : ℚ) / 100 = 0)]
    exact ⟨sdeg_bound r g r _ le_rfl (le_of_lt hchrom) hdsmall hlld,
      sdeg_bound g g r _ (le_of_lt hchrom) le_rfl hdsmall hlld,
      sdeg_bound b g r _ (le_of_lt hrb) hbg hdsmall hlld⟩
  · unfold hslToRgb
    dsimp only
    rw [if_neg (intCast_div100_ne _ hsz)]
    have hh0q : (120:ℚ) ≤ ((mathRound (120 + 60 * (((b:ℚ) - r) / ((g:ℚ) - r))) : ℤ) : ℚ) := by
      exact_mod_cast hh0
    have hh60q : ((mathRound (120 + 60 * (((b:ℚ) - r) / ((g:ℚ) - r))) : ℤ) : ℚ) ≤ 180 := by
      exact_mod_cast hh60
    rw [hue2rgb_plateau_p _ _ _ (by linarith) (by linarith),
      hue2rgb_plateau_q _ _ _ (by linarith) (by linarith),
      hue2rgb_ramp_up _ _ _ (by linarith) (by linarith)]
    have hqfold : (if ((mathRound (((g:ℚ)/255 + (r:ℚ)/255) / 2 * 100) : ℤ) : ℚ) / 100 < 1/2
        then ((mathRound (((g:ℚ)/255 + (r:ℚ)/255) / 2 * 100) : ℤ) : ℚ) / 100
          * (1 + ((mathRound (satExact ((g:ℚ)/255) ((r:ℚ)/255) * 100) : ℤ) : ℚ) / 100)
        else ((mathRound (((g:ℚ)/255 + (r:ℚ)/255) / 2 * 100) : ℤ) : ℚ) / 100
          + ((mathRound (satExact ((g:ℚ)/255) ((r:ℚ)/255) * 100) : ℤ) : ℚ) / 100
          - ((mathRound (((g:ℚ)/255 + (r:ℚ)/255) / 2 * 100) : ℤ) : ℚ) / 100
          * (((mathRound (satExact ((g:ℚ)/255) ((r:ℚ)/255) * 100) : ℤ) : ℚ) / 100))
        = qval (((mathRound (satExact ((g:ℚ)/255) ((r:ℚ)/255) * 100) : ℤ) : ℚ) / 100)
               (((mathRound (((g:ℚ)/255 + (r:ℚ)/255) / 2 * 100) : ℤ) : ℚ) / 100) := rfl
    rw [hqfold]
    obtain ⟨H1, H2, H3⟩ := channels_close g r b
      (mathRound (satExact ((g:ℚ)/255) ((r:ℚ)/255) * 100))
      (mathRound (((g:ℚ)/255 + (r:ℚ)/255) / 2 * 100))
      (((mathRound (120 + 60 * (((b:ℚ) - r) / ((g:ℚ) - r))) : ℤ) : ℚ) / 60 - 2)
      (((b:ℚ) - r) / ((g:ℚ) - r))
      h0r hchrom hg255
      hssd hss0 hss100 hlld hll0 hll100
      (by linarith) (by linarith)
      (by rw [abs_le] at hhd ⊢; constructor <;> linarith [hhd.1, hhd.2])
      (by field_simp)
    exact ⟨H2, H1, mathRound_arg_congr _ _ _ (by ring) H3⟩

theorem rgbToHsl_caseE1 (r g b : ℤ) (hrg : r ≤ g) (hgb : g < b) :
    rgbToHsl r g b =
      ⟨mathRound (240 - 60 * (((g:ℚ) - r) / ((b:ℚ) - r))),
       mathRound (satExact ((b:ℚ)/255) ((r:ℚ)/255) * 100),
       mathRound (((b:ℚ)/255 + (r:ℚ)/255) / 2 * 100)⟩ := by
  have hrgq : (r:ℚ) ≤ g := by exact_mod_cast hrg
  have hgbq : (g:ℚ) < b := by exact_mod_cast hgb
  have hrg' : (r:ℚ)/255 ≤ (g:ℚ)/255 := by linarith
  have hgb' : (g:ℚ)/255 < (b:ℚ)/255 := by linarith
  have hrb' : (r:ℚ)/255 < (b:ℚ)/255 := by linarith
  have hmx : max (max ((r:ℚ)/255) ((g:ℚ)/255)) ((b:ℚ)/255) = (b:ℚ)/255 := by
    rw [max_eq_right hrg', max_eq_right (le_of_lt hgb')]
  have hmn : min (min ((r:ℚ)/255) ((g:ℚ)/255)) ((b:ℚ)/255) = (r:ℚ)/255 := by
    rw [min_eq_left hrg', min_eq_left (le_of_lt hrb')]
  unfold rgbToHsl
  dsimp only
  rw [hmx, hmn, if_neg (ne_of_gt hrb'), if_neg (ne_of_gt hrb'), if_neg (ne_of_gt hgb')]
  have harg : (((r:ℚ)/255 - (g:ℚ)/255) / ((b:ℚ)/255 - (r:ℚ)/255) + 4) / 6 * 360
      = 240 - 60 * (((g:ℚ) - r) / ((b:ℚ) - r)) := by
    have hne : (b:ℚ) - r ≠ 0 := by linarith
    field_simp
    ring
  rw [show (if ((b:ℚ)/255 + (r:ℚ)/255) / 2 > 1/2
        then ((b:ℚ)/255 - (r:ℚ)/255) / (2 - (b:ℚ)/255 - (r:ℚ)/255)
        else ((b:ℚ)/255 - (r:ℚ)/255) / ((b:ℚ)/255 + (r:ℚ)/255))
      = satExact ((b:ℚ)/255) ((r:ℚ)/255) from rfl]
  rw [harg]

theorem roundtrip_caseE1 (r g b : ℤ) (h0r : 0 ≤ r) (hb255 : b ≤ 255)
    (hrg : r ≤ g) (hgb : g < b) :
    |(hslToRgb ((rgbToHsl r g b).h : ℚ) ((rgbToHsl r g b).s : ℚ) ((rgbToHsl r g b).l : ℚ)).r - r| ≤ 5 ∧
    |(hslToRgb ((rgbToHsl r g b).h : ℚ) ((rgbToHsl r g b).s : ℚ) ((rgbToHsl r g b).l : ℚ)).g - g| ≤ 5 ∧
    |(hslToRgb ((rgbToHsl r g b).h : ℚ) ((rgbToHsl r g b).s : ℚ) ((rgbToHsl r g b).l : ℚ)).b - b| ≤ 5 := by
  rw [rgbToHsl_caseE1 r g b hrg hgb]
  have hchrom : r < b := lt_of_le_of_lt hrg hgb
  have hrgq : (r:ℚ) ≤ g := by exact_mod_cast hrg
  have hgbq : (g:ℚ) < b := by exact_mod_cast hgb
  have h0rq : (0:ℚ) ≤ r := by exact_mod_cast h0r
  have hb255q : (b:ℚ) ≤ 255 := by exact_mod_cast hb255
  have hbrpos : (0:ℚ) < (b:ℚ) - r := by linarith
  have hw00 : (0:ℚ) ≤ ((g:ℚ) - r) / ((b:ℚ) - r) :=
    div_nonneg (by linarith) (le_of_lt hbrpos)
  have hw01 : ((g:ℚ) - r) / ((b:ℚ) - r) ≤ 1 := by
    rw [div_le_one hbrpos]
    linarith
  have hu1 : (b:ℚ)/255 ≤ 1 := by linarith
  have hv0 : (0:ℚ) ≤ (r:ℚ)/255 := by linarith
  have hvu : (r:ℚ)/255 < (b:ℚ)/255 := by linarith
  obtain ⟨hs0, hs1, hsge⟩ := satExact_mem ((b:ℚ)/255) ((r:ℚ)/255) hv0 hvu hu1
  obtain ⟨hh0, hh60⟩ := mathRound_mem (240 - 60 * (((g:ℚ) - r) / ((b:ℚ) - r))) 180 240
    (by push_cast; linarith) (by push_cast; linarith)
  obtain ⟨hss0, hss100⟩ := mathRound_mem (satExact ((b:ℚ)/255) ((r:ℚ)/255) * 100) 0 100
    (by push_cast; linarith) (by push_cast; linarith)
  have hl00 : (0:ℚ) ≤ ((b:ℚ)/255 + (r:ℚ)/255) / 2 := by linarith
  have hl01 : ((b:ℚ)/255 + (r:ℚ)/255) / 2 ≤ 1 := by linarith
  obtain ⟨hll0, hll100⟩ := mathRound_mem (((b:ℚ)/255 + (r:ℚ)/255) / 2 * 100) 0 100
    (by push_cast; linarith) (by push_cast; linarith)
  have hssd := mathRound_dist (satExact ((b:ℚ)/255) ((r:ℚ)/255) * 100)
  have hlld := mathRound_dist (((b:ℚ)/255 + (r:ℚ)/255) / 2 * 100)
  have hhd := mathRound_dist (240 - 60 * (((g:ℚ) - r) / ((b:ℚ) - r)))
  by_cases hsz : mathRound (satExact ((b:ℚ)/255) ((r:ℚ)/255) * 100) = 0
  · have hdsmall : (b:ℚ) - r ≤ 51/20 := by
      rw [hsz] at hssd
      rw [abs_le] at hssd
      have h1 : satExact ((b:ℚ)/255) ((r:ℚ)/255) ≤ 1/200 := by
        have := hssd.1
        push_cast at this
        linarith
      have h2 : ((b:ℚ)/255 - (r:ℚ)/255) / 2 ≤ 1/200 := le_trans hsge h1
      linarith
    unfold hslToRgb
    dsimp only
    rw [if_pos (by rw [hsz]; norm_num :
      ((mathRound (satExact ((b:ℚ)/255) ((r:ℚ)/255) * 100) : ℤ) : ℚ) / 100 = 0)]
    exact ⟨sdeg_bound r b r _ le_rfl (le_of_lt hchrom) hdsmall hlld,
      sdeg_bound g b r _ hrg (le_of_lt hgb) hdsmall hlld,
      sdeg_bound b b r _ (le_of_lt hchrom) le_rfl hdsmall hlld⟩
  · unfold hslToRgb
    dsimp only
    rw [if_neg (intCast_div100_ne _ hsz)]
    have hh0q : (180:ℚ) ≤ ((mathRound (240 - 60 * (((g:ℚ) - r) / ((b:ℚ) - r))) : ℤ) : ℚ) := by
      exact_mod_cast hh0
    have hh60q : ((mathRound (240 - 60 * (((g:ℚ) - r) / ((b:ℚ) - r))) : ℤ) : ℚ) ≤ 240 := by
      exact_mod_cast hh60
    rw [hue2rgb_plateau_p _ _ _ (by linarith) (by linarith),
      hue2rgb_ramp_down _ _ _ (by linarith) (by linarith),
      hue2rgb_plateau_q _ _ _ (by linarith) (by linarith)]
    have hqfold : (if ((mathRound (((b:ℚ)/255 + (r:ℚ)/255) / 2 * 100) : ℤ) : ℚ) / 100 < 1/2
        then ((mathRound (((b:ℚ)/255 + (r:ℚ)/255) / 2 * 100) : ℤ) : ℚ) / 100
          * (1 + ((mathRound (satExact ((b:ℚ)/255) ((r:ℚ)/255) * 100) : ℤ) : ℚ) / 100)
        else ((mathRound (((b:ℚ)/255 + (r:ℚ)/255) / 2 * 100) : ℤ) : ℚ) / 100
          + ((mathRound (satExact ((b:ℚ)/255) ((r:ℚ)/255) * 100) : ℤ) : ℚ) / 100
          - ((mathRound (((b:ℚ)/255 + (r:ℚ)/255) / 2 * 100) : ℤ) : ℚ) / 100
          * (((mathRound (satExact ((b:ℚ)/255) ((r:ℚ)/255) * 100) : ℤ) : ℚ) / 100))
        = qval (((mathRound (satExact ((b:ℚ)/255) ((r:ℚ)/255) * 100) : ℤ) : ℚ) / 100)
               (((mathRound (((b:ℚ)/255 + (r:ℚ)/255) / 2 * 100) : ℤ) : ℚ) / 100) := rfl
    rw [hqfold]
    obtain ⟨H1, H2, H3⟩ := channels_close b r g
      (mathRound (satExact ((b:ℚ)/255) ((r:ℚ)/255) * 100))
      (mathRound (((b:ℚ)/255 + (r:ℚ)/255) / 2 * 100))
      (4 - ((mathRound (240 - 60 * (((g:ℚ) - r) / ((b:ℚ) - r))) : ℤ) : ℚ) / 60)
      (((g:ℚ) - r) / ((b:ℚ) - r))
      h0r hchrom hb255
      hssd hss0 hss100 hlld hll0 hll100
      (by linarith) (by linarith)
      (by rw [abs_le] at hhd ⊢; constructor <;> linarith [hhd.1, hhd.2])
      (by field_simp)
    exact ⟨H2, mathRound_arg_congr _ _ _ (by ring) H3, H1⟩

theorem rgbToHsl_caseE2 (r g b : ℤ) (hgr : g < r) (hrb : r < b) :
    rgbToHsl r g b =
      ⟨mathRound (240 + 60 * (((r:ℚ) - g) / ((b:ℚ) - g))),
       mathRound (satExact ((b:ℚ)/255) ((g:ℚ)/255) * 100),
       mathRound (((b:ℚ)/255 + (g:ℚ)/255) / 2 * 100)⟩ := by
  have hgrq : (g:ℚ) < r := by exact_mod_cast hgr
  have hrbq : (r:ℚ) < b := by exact_mod_cast hrb
  have hgr' : (g:ℚ)/255 < (r:ℚ)/255 := by linarith
  have hrb' : (r:ℚ)/255 < (b:ℚ)/255 := by linarith
  have hgb' : (g:ℚ)/255 < (b:ℚ)/255 := by linarith
  have hmx : max (max ((r:ℚ)/255) ((g:ℚ)/255)) ((b:ℚ)/255) = (b:ℚ)/255 := by
    rw [max_eq_left (le_of_lt hgr'), max_eq_right (le_of_lt hrb')]
  have hmn : min (min ((r:ℚ)/255) ((g:ℚ)/255)) ((b:ℚ)/255) = (g:ℚ)/255 := by
    rw [min_eq_right (le_of_lt hgr'), min_eq_left (le_of_lt hgb')]
  unfold rgbToHsl
  dsimp only
  rw [hmx, hmn, if_neg (ne_of_gt hgb'), if_neg (ne_of_gt hrb'), if_neg (ne_of_gt hgb')]
  have harg : (((r:ℚ)/255 - (g:ℚ)/255) / ((b:ℚ)/255 - (g:ℚ)/255) + 4) / 6 * 360
      = 240 + 60 * (((r:ℚ) - g) / ((b:ℚ) - g)) := by
    have hne : (b:ℚ) - g ≠ 0 := by linarith
    field_simp
    ring
  rw [show (if ((b:ℚ)/255 + (g:ℚ)/255) / 2 > 1/2
        then ((b:ℚ)/255 - (g:ℚ)/255) / (2 - (b:ℚ)/255 - (g:ℚ)/255)
        else ((b:ℚ)/255 - (g:ℚ)/255) / ((b:ℚ)/255 + (g:ℚ)/255))
      = satExact ((b:ℚ)/255) ((g:ℚ)/255) from rfl]
  rw [harg]

theorem roundtrip_caseE2 (r g b : ℤ) (h0g : 0 ≤ g) (hb255 : b ≤ 255)
    (hgr : g < r) (hrb : r < b) :
    |(hslToRgb ((rgbToHsl r g b).h : ℚ) ((rgbToHsl r g b).s : ℚ) ((rgbToHsl r g b).l : ℚ)).r - r| ≤ 5 ∧
    |(hslToRgb ((rgbToHsl r g b).h : ℚ) ((rgbToHsl r g b).s : ℚ) ((rgbToHsl r g b).l : ℚ)).g - g| ≤ 5 ∧
    |(hslToRgb ((rgbToHsl r g b).h : ℚ) ((rgbToHsl r g b).s : ℚ) ((rgbToHsl r g b).l : ℚ)).b - b| ≤ 5 := by
  rw [rgbToHsl_caseE2 r g b hgr hrb]
  have hchrom : g < b := lt_trans hgr hrb
  have hgrq : (g:ℚ) < r := by exact_mod_cast hgr
  have hrbq : (r:ℚ) < b := by exact_mod_cast hrb
  have h0gq : (0:ℚ) ≤ g := by exact_mod_cast h0g
  have hb255q : (b:ℚ) ≤ 255 := by exact_mod_cast hb255
  have hbgpos : (0:ℚ) < (b:ℚ) - g := by linarith
  have hw00 : (0:ℚ) ≤ ((r:ℚ) - g) / ((b:ℚ) - g) :=
    div_nonneg (by linarith) (le_of_lt hbgpos)
  have hw01 : ((r:ℚ) - g) / ((b:ℚ) - g) ≤ 1 := by
    rw [div_le_one hbgpos]
    linarith
  have hu1 : (b:ℚ)/255 ≤ 1 := by linarith
  have hv0 : (0:ℚ) ≤ (g:ℚ)/255 := by linarith
  have hvu : (g:ℚ)/255 < (b:ℚ)/255 := by linarith
  obtain ⟨hs0, hs1, hsge⟩ := satExact_mem ((b:ℚ)/255) ((g:ℚ)/255) hv0 hvu hu1
  obtain ⟨hh0, hh60⟩ := mathRound_mem (240 + 60 * (((r:ℚ) - g) / ((b:ℚ) - g))) 240 300
    (by push_cast; linarith) (by push_cast; linarith)
  obtain ⟨hss0, hss100⟩ := mathRound_mem (satExact ((b:ℚ)/255) ((g:ℚ)/255) * 100) 0 100
    (by push_cast; linarith) (by push_cast; linarith)
  have hl00 : (0:ℚ) ≤ ((b:ℚ)/255 + (g:ℚ)/255) / 2 := by linarith
  have hl01 : ((b:ℚ)/255 + (g:ℚ)/255) / 2 ≤ 1 := by linarith
  obtain ⟨hll0, hll100⟩ := mathRound_mem (((b:ℚ)/255 + (g:ℚ)/255) / 2 * 100) 0 100
    (by push_cast; linarith) (by push_cast; linarith)
  have hssd := mathRound_dist (satExact ((b:ℚ)/255) ((g:ℚ)/255) * 100)
  have hlld := mathRound_dist (((b:ℚ)/255 + (g:ℚ)/255) / 2 * 100)
  have hhd := mathRound_dist (240 + 60 * (((r:ℚ) - g) / ((b:ℚ) - g)))
  by_cases hsz : mathRound (satExact ((b:ℚ)/255) ((g:ℚ)/255) * 100) = 0
  · have hdsmall : (b:ℚ) - g ≤ 51/20 := by
      rw [hsz] at hssd
      rw [abs_le] at hssd
      have h1 : satExact ((b:ℚ)/255) ((g:ℚ)/255) ≤ 1/200 := by
        have := hssd.1
        push_cast at this
        linarith
      have h2 : ((b:ℚ)/255 - (g:ℚ)/255) / 2 ≤ 1/200 := le_trans hsge h1
      linarith
    unfold hslToRgb
    dsimp only
    rw [if_pos (by rw [hsz]; norm_num :
      ((mathRound (satExact ((b:ℚ)/255) ((g:ℚ)/255) * 100) : ℤ) : ℚ) / 100 = 0)]
    exact ⟨sdeg_bound r b g _ (le_of_lt hgr) (le_of_lt hrb) hdsmall hlld,
      sdeg_bound g b g _ le_rfl (le_of_lt hchrom) hdsmall hlld,
      sdeg_bound b b g _ (le_of_lt hchrom) le_rfl hdsmall hlld⟩
  · unfold hslToRgb
    dsimp only
    rw [if_neg (intCast_div100_ne _ hsz)]
    have hh0q : (240:ℚ) ≤ ((mathRound (240 + 60 * (((r:ℚ) - g) / ((b:ℚ) - g))) : ℤ) : ℚ) := by
      exact_mod_cast hh0
    have hh60q : ((mathRound (240 + 60 * (((r:ℚ) - g) / ((b:ℚ) - g))) : ℤ) : ℚ) ≤ 300 := by
      exact_mod_cast hh60
    rw [hue2rgb_ramp_up_high _ _ _ (by linarith) (by linarith),
      hue2rgb_plateau_p _ _ _ (by linarith) (by linarith),
      hue2rgb_plateau_q _ _ _ (by linarith) (by linarith)]
    have hqfold : (if ((mathRound (((b:ℚ)/255 + (g:ℚ)/255) / 2 * 100) : ℤ) : ℚ) / 100 < 1/2
        then ((mathRound (((b:ℚ)/255 + (g:ℚ)/255) / 2 * 100) : ℤ) : ℚ) / 100
          * (1 + ((mathRound (satExact ((b:ℚ)/255) ((g:ℚ)/255) * 100) : ℤ) : ℚ) / 100)
        else ((mathRound (((b:ℚ)/255 + (g:ℚ)/255) / 2 * 100) : ℤ) : ℚ) / 100
          + ((mathRound (satExact ((b:ℚ)/255) ((g:ℚ)/255) * 100) : ℤ) : ℚ) / 100
          - ((mathRound (((b:ℚ)/255 + (g:ℚ)/255) / 2 * 100) : ℤ) : ℚ) / 100
          * (((mathRound (satExact ((b:ℚ)/255) ((g:ℚ)/255) * 100) : ℤ) : ℚ) / 100))
        = qval (((mathRound (satExact ((b:ℚ)/255) ((g:ℚ)/255) * 100) : ℤ) : ℚ) / 100)
               (((mathRound (((b:ℚ)/255 + (g:ℚ)/255) / 2 * 100) : ℤ) : ℚ) / 100) := rfl
    rw [hqfold]
    obtain ⟨H1, H2, H3⟩ := channels_close b g r
      (mathRound (satExact ((b:ℚ)/255) ((g:ℚ)/255) * 100))
      (mathRound (((b:ℚ)/255 + (g:ℚ)/255) / 2 * 100))
      (((mathRound (240 + 60 * (((r:ℚ) - g) / ((b:ℚ) - g))) : ℤ) : ℚ) / 60 - 4)
      (((r:ℚ) - g) / ((b:ℚ) - g))
      h0g hchrom hb255
      hssd hss0 hss100 hlld hll0 hll100
      (by linarith) (by linarith)
      (by rw [abs_le] at hhd ⊢; constructor <;> linarith [hhd.1, hhd.2])
      (by field_simp)
    exact ⟨mathRound_arg_congr _ _ _ (by ring) H3, H2, H1⟩

theorem roundtrip_achrom (r : ℤ) (h0 : 0 ≤ r) (h255 : r ≤ 255) :
    |(hslToRgb ((rgbToHsl r r r).h : ℚ) ((rgbToHsl r r r).s : ℚ) ((rgbToHsl r r r).l : ℚ)).r - r| ≤ 5 ∧
    |(hslToRgb ((rgbToHsl r r r).h : ℚ) ((rgbToHsl r r r).s : ℚ) ((rgbToHsl r r r).l : ℚ)).g - r| ≤ 5 ∧
    |(hslToRgb ((rgbToHsl r r r).h : ℚ) ((rgbToHsl r r r).s : ℚ) ((rgbToHsl r r r).l : ℚ)).b - r| ≤ 5 := by
  have hhsl : rgbToHsl r r r = ⟨0, 0, mathRound (((r:ℚ)/255 + (r:ℚ)/255) / 2 * 100)⟩ := by
    unfold rgbToHsl
    dsimp only
    rw [max_self, max_self, min_self, min_self, if_pos rfl]
    congr 1 <;> norm_num [mathRound]
  rw [hhsl]
  have hlld := mathRound_dist (((r:ℚ)/255 + (r:ℚ)/255) / 2 * 100)
  unfold hslToRgb
  dsimp only
  rw [if_pos (by norm_num : (((0:ℤ):ℚ)) / 100 = 0)]
  have hz : ((r:ℚ)) - r ≤ 51/20 := by linarith
  exact ⟨sdeg_bound r r r _ le_rfl le_rfl hz hlld,
    sdeg_bound r r r _ le_rfl le_rfl hz hlld,
    sdeg_bound r r r _ le_rfl le_rfl hz hlld⟩


/-- C6 counterexample: the round trip `rgbToHsl` followed by `hslToRgb` does
NOT reproduce every channel to within plus or minus 1: at the input
(2, 228, 230) the HSL value is (181, 98, 45) and converting back yields green
channel 223, which differs from the original 228 by 5. -/
theorem rgbToHsl_hslToRgb_error_five :
    rgbToHsl 2 228 230 = ⟨181, 98, 45⟩ ∧
    (hslToRgb ((rgbToHsl 2 228 230).h : ℚ) ((rgbToHsl 2 228 230).s : ℚ)
      ((rgbToHsl 2 228 230).l : ℚ)).g = 223 ∧
    ¬ |(hslToRgb ((rgbToHsl 2 228 230).h : ℚ) ((rgbToHsl 2 228 230).s : ℚ)
      ((rgbToHsl 2 228 230).l : ℚ)).g - 228| ≤ 1 := by
  have h1 : rgbToHsl 2 228 230 = ⟨181, 98, 45⟩ := by
    norm_num [rgbToHsl, mathRound, satExact]
  refine ⟨h1, ?_, ?_⟩
  · rw [h1]
    norm_num [hslToRgb, hue2rgb, mathRound]
  · rw [h1]
    norm_num [hslToRgb, hue2rgb, mathRound]

/-- C6 (corrected): converting an in-range RGB color to HSL with `rgbToHsl`
and back with `hslToRgb` reproduces each channel only to within plus or minus
5, not the plus or minus 1 the spec claims; the bound 5 is attained at
(2, 228, 230). -/
theorem rgbToHsl_hslToRgb_within_five (r g b : ℤ)
    (h0r : 0 ≤ r) (hr : r ≤ 255) (h0g : 0 ≤ g) (hg : g ≤ 255)
    (h0b : 0 ≤ b) (hb : b ≤ 255) :
    |(hslToRgb ((rgbToHsl r g b).h : ℚ) ((rgbToHsl r g b).s : ℚ) ((rgbToHsl r g b).l : ℚ)).r - r| ≤ 5 ∧
    |(hslToRgb ((rgbToHsl r g b).h : ℚ) ((rgbToHsl r g b).s : ℚ) ((rgbToHsl r g b).l : ℚ)).g - g| ≤ 5 ∧
    |(hslToRgb ((rgbToHsl r g b).h : ℚ) ((rgbToHsl r g b).s : ℚ) ((rgbToHsl r g b).l : ℚ)).b - b| ≤ 5 := by
  rcases le_or_lt g r with hgr | hrg
  · rcases le_or_lt b g with hbg | hgb
    · rcases lt_or_eq_of_le (le_trans hbg hgr) with hbr | hbr
      · exact roundtrip_caseA r g b h0b hr hgr hbg hbr
      · subst hbr
        have hge : g = b := le_antisymm hgr hbg
        subst hge
        exact roundtrip_achrom g h0g hg
    · rcases le_or_lt b r with hbr | hrb
      · exact roundtrip_caseB r g b h0g hr hgb hbr
      · rcases lt_or_eq_of_le hgr with hgr2 | hgr2
        · exact roundtrip_caseE2 r g b h0g hb hgr2 hrb
        · exact roundtrip_caseE1 r g b h0r hb hgr2.ge hgb
  · rcases le_or_lt b g with hbg | hgb
    · rcases le_or_lt b r with hbr | hrb
      · exact roundtrip_caseC r g b h0b hg hrg hbr
      · exact roundtrip_caseD r g b h0r hg hbg hrb
    · exact roundtrip_caseE1 r g b h0r hb (le_of_lt hrg) hgb

theorem rgbToHsl_hslToRgb_within_five_witness :
    |(hslToRgb ((rgbToHsl 10 200 30).h : ℚ) ((rgbToHsl 10 200 30).s : ℚ) ((rgbToHsl 10 200 30).l : ℚ)).r - 10| ≤ 5 ∧
    |(hslToRgb ((rgbToHsl 10 200 30).h : ℚ) ((rgbToHsl 10 200 30).s : ℚ) ((rgbToHsl 10 200 30).l : ℚ)).g - 200| ≤ 5 ∧
    |(hslToRgb ((rgbToHsl 10 200 30).h : ℚ) ((rgbToHsl 10 200 30).s : ℚ) ((rgbToHsl 10 200 30).l : ℚ)).b - 30| ≤ 5 :=
  rgbToHsl_hslToRgb_within_five 10 200 30 (by decide) (by decide) (by decide)
    (by decide) (by decide) (by decide)
